import Mathlib

/-!
Verification of the Moonlight device-agent core (codec, credentials, client
logic, supervisor backoff) against its specification.  The Rust source in
`device-agent/src/moonlight_codec.rs` is shallowly embedded: bytes are natural
numbers below 256, byte buffers are lists, the deku-derived wire codec is
re-implemented as a streaming parser over byte lists, and the stateful client
logic becomes pure functions from state and event to state plus emitted
side effects (transport writes, reply-channel completions, notifications).
-/

set_option maxHeartbeats 1600000

namespace Moonlight

/-- Result of running a streaming parser: a value with the unconsumed rest of
the input, a report that more bytes are needed, or a malformed-input error.
This mirrors the three-way outcome of deku's `from_bytes` as used by
`Codec::decode` (`Ok`, `Err(Incomplete)`, other `Err`). -/
inductive ParseResult (α : Type) : Type where
  | ok (a : α) (rest : List Nat)
  | incomplete
  | error
  deriving DecidableEq

/-- A byte-list parser.  Bytes are modelled as natural numbers below 256. -/
def Parser (α : Type) : Type := List Nat → ParseResult α

/-- Parser returning a value without consuming input. -/
def ppure {α : Type} (a : α) : Parser α := fun bs => .ok a bs

/-- Sequence two parsers, threading the unconsumed rest. -/
def pbind {α β : Type} (p : Parser α) (f : α → Parser β) : Parser β := fun bs =>
  match p bs with
  | .ok a rest => f a rest
  | .incomplete => .incomplete
  | .error => .error

/-- The always-failing parser (malformed input, e.g. an unknown enum id). -/
def pfail {α : Type} : Parser α := fun _ => .error

/-- Read one byte; more bytes are needed on empty input. -/
def pbyte : Parser Nat := fun bs =>
  match bs with
  | [] => .incomplete
  | b :: rest => .ok b rest

/-- Read exactly `n` bytes; more bytes are needed when fewer are available. -/
def pbytes (n : Nat) : Parser (List Nat) := fun bs =>
  if n ≤ bs.length then .ok (bs.take n) (bs.drop n) else .incomplete

/-- Big-endian value of a byte list. -/
def beVal (bs : List Nat) : Nat := bs.foldl (fun acc b => acc * 256 + b) 0

/-- Big-endian encoding of `n` in exactly `w` bytes (most significant first). -/
def beBytes : Nat → Nat → List Nat
  | 0, _ => []
  | w + 1, n => beBytes w (n / 256) ++ [n % 256]

/-- Read a `w`-byte big-endian unsigned integer. -/
def pbeNat (w : Nat) : Parser Nat := pbind (pbytes w) (fun bs => ppure (beVal bs))

/-- Conditionally read a field (deku `cond` attribute): when the condition is
false the field is absent and no bytes are consumed. -/
def popt {α : Type} (c : Bool) (p : Parser α) : Parser (Option α) :=
  if c then pbind p (fun a => ppure (some a)) else ppure none

/-- Serialization format byte of the Connect packet (1 = MsgPack, 2 = JSON). -/
inductive SerializationFormat : Type where
  | MsgPack
  | JSON
  deriving DecidableEq

/-- Pulse type enum (deku ids 0..3). -/
inductive PulseType : Type where
  | Unknown
  | System
  | Data
  | Msg
  deriving DecidableEq

/-- Unauthorized reason enum (deku ids 0..6). -/
inductive UnauthorizedError : Type where
  | Unknown
  | InvalidCredentials
  | FleetNotFound
  | DeviceNotFound
  | DeviceSecretIncorrect
  | DeviceDisabled
  | TemporaryBan
  deriving DecidableEq

/-- ConnectFailed reason enum (deku ids 0..3). -/
inductive ConnectFailedError : Type where
  | Unknown
  | ServiceRestarting
  | ServiceUnavailable
  | ServiceDegraded
  deriving DecidableEq

/-- Pulse error reason enum (deku ids 0..3). -/
inductive PulseErrorReason : Type where
  | Unknown
  | DeserializationFailed
  | PacketSchemaNotFound
  | PacketSchemaTypeMismatch
  deriving DecidableEq

/-- Mail acknowledgement type enum (deku ids 1..3). -/
inductive MailAckType : Type where
  | Ack
  | Reject
  | Requeue
  deriving DecidableEq

/-- Session disconnect reasons. -/
inductive DisconnectedReason : Type where
  | ForceCloseSocket
  | NormalDisconnect
  | Unauthorized (r : UnauthorizedError)
  | ConnectFailed (r : ConnectFailedError)
  deriving DecidableEq

def SerializationFormat.toByte : SerializationFormat → Nat
  | .MsgPack => 1
  | .JSON => 2

def PulseType.toByte : PulseType → Nat
  | .Unknown => 0
  | .System => 1
  | .Data => 2
  | .Msg => 3

def UnauthorizedError.toByte : UnauthorizedError → Nat
  | .Unknown => 0
  | .InvalidCredentials => 1
  | .FleetNotFound => 2
  | .DeviceNotFound => 3
  | .DeviceSecretIncorrect => 4
  | .DeviceDisabled => 5
  | .TemporaryBan => 6

def ConnectFailedError.toByte : ConnectFailedError → Nat
  | .Unknown => 0
  | .ServiceRestarting => 1
  | .ServiceUnavailable => 2
  | .ServiceDegraded => 3

def PulseErrorReason.toByte : PulseErrorReason → Nat
  | .Unknown => 0
  | .DeserializationFailed => 1
  | .PacketSchemaNotFound => 2
  | .PacketSchemaTypeMismatch => 3

def MailAckType.toByte : MailAckType → Nat
  | .Ack => 1
  | .Reject => 2
  | .Requeue => 3

def pSerializationFormat : Parser SerializationFormat :=
  pbind pbyte (fun b =>
    if b = 1 then ppure .MsgPack
    else if b = 2 then ppure .JSON
    else pfail)

def pPulseType : Parser PulseType :=
  pbind pbyte (fun b =>
    if b = 0 then ppure .Unknown
    else if b = 1 then ppure .System
    else if b = 2 then ppure .Data
    else if b = 3 then ppure .Msg
    else pfail)

def pUnauthorizedError : Parser UnauthorizedError :=
  pbind pbyte (fun b =>
    if b = 0 then ppure .Unknown
    else if b = 1 then ppure .InvalidCredentials
    else if b = 2 then ppure .FleetNotFound
    else if b = 3 then ppure .DeviceNotFound
    else if b = 4 then ppure .DeviceSecretIncorrect
    else if b = 5 then ppure .DeviceDisabled
    else if b = 6 then ppure .TemporaryBan
    else pfail)

def pConnectFailedError : Parser ConnectFailedError :=
  pbind pbyte (fun b =>
    if b = 0 then ppure .Unknown
    else if b = 1 then ppure .ServiceRestarting
    else if b = 2 then ppure .ServiceUnavailable
    else if b = 3 then ppure .ServiceDegraded
    else pfail)

def pPulseErrorReason : Parser PulseErrorReason :=
  pbind pbyte (fun b =>
    if b = 0 then ppure .Unknown
    else if b = 1 then ppure .DeserializationFailed
    else if b = 2 then ppure .PacketSchemaNotFound
    else if b = 3 then ppure .PacketSchemaTypeMismatch
    else pfail)

def pMailAckType : Parser MailAckType :=
  pbind pbyte (fun b =>
    if b = 1 then ppure .Ack
    else if b = 2 then ppure .Reject
    else if b = 3 then ppure .Requeue
    else pfail)

/-- The Moonlight packet catalog, mirroring the deku-annotated Rust enum
`MoonlightPacket` field for field (including the redundant length fields
`name_len` and `payload_len`, which on the wire are stored separately from
the variable-length data they describe). -/
inductive MoonlightPacket : Type where
  | CloseConnection (server : Bool)
  | Connect (keep_alive : Bool) (protocol_version : Nat)
      (serialization_format : SerializationFormat)
      (fleet_id device_id device_secret : List Nat)
  | Connected (mail_available keep_alive : Bool)
  | Unauthorized (reason : UnauthorizedError)
  | ConnectFailed (reason : ConnectFailedError)
  | Heartbeat (v : Nat)
  | HeartbeatAck (successful : Bool)
  | Pulse (pulse_type : PulseType) (pulse_id : Nat)
      (name_len : Nat) (name : List Nat)
      (payload_len : Nat) (payload : List Nat)
  | PulseResp (successful : Bool) (pulse_id : Nat)
      (error_reason : Option PulseErrorReason)
  | NewMailEvent (mailbox_size : Nat) (pulse_id : Nat)
  | MailboxNext (header_only : Bool) (txn_id : Nat)
  | MailboxNextResp (header_only successful : Bool)
      (txn_id mailbox_size : Nat)
      (pulse_id : Option Nat) (name_len : Option Nat) (name : Option (List Nat))
      (payload_len : Option Nat) (payload : Option (List Nat))
  | AckMail (pulse_id : Nat) (ack_type : MailAckType)
  | AckMailResp (successful : Bool) (mailbox_size pulse_id : Nat)
      (ack_type : MailAckType)
  deriving DecidableEq

/-- Flag bit encoding: a deku 1-bit bool. -/
def flagBit (b : Bool) : Nat := if b then 1 else 0

/-- Byte serialization of a packet, following deku's write semantics: one tag
byte, flag bits packed into the second byte (reserved padding bits written as
zero), big-endian multi-byte integers, padding bytes written as zero, `Vec`
fields written in full, `Option` fields written when present. -/
def MoonlightPacket.encode : MoonlightPacket → List Nat
  | .CloseConnection server => [1, flagBit server]
  | .Connect ka pv sf fid did ds =>
      2 :: flagBit ka :: pv :: sf.toByte :: (fid ++ (did ++ ds))
  | .Connected mail ka => [3, 2 * flagBit mail + flagBit ka]
  | .Unauthorized r => [4, 0, r.toByte]
  | .ConnectFailed r => [5, 0, r.toByte]
  | .Heartbeat v => [8, v]
  | .HeartbeatAck s => [9, flagBit s]
  | .Pulse pt pid nl nm plen pl =>
      10 :: 0 :: pt.toByte :: (beBytes 8 pid ++ nl :: (nm ++ (beBytes 4 plen ++ pl)))
  | .PulseResp s pid er =>
      11 :: flagBit s :: (beBytes 8 pid ++ (er.map PulseErrorReason.toByte).toList)
  | .NewMailEvent size pid => 20 :: 0 :: (beBytes 2 size ++ beBytes 8 pid)
  | .MailboxNext ho txn => 21 :: flagBit ho :: beBytes 8 txn
  | .MailboxNextResp ho s txn size pid nl nm plen pl =>
      22 :: (2 * flagBit ho + flagBit s) ::
        (beBytes 8 txn ++ (beBytes 2 size ++
          ((pid.map (beBytes 8)).getD [] ++ (nl.toList ++ (nm.getD [] ++
            ((plen.map (beBytes 4)).getD [] ++ pl.getD []))))))
  | .AckMail pid ack => 25 :: 0 :: (beBytes 8 pid ++ [ack.toByte])
  | .AckMailResp s size pid ack =>
      26 :: flagBit s :: (beBytes 2 size ++ (beBytes 8 pid ++ [ack.toByte]))

/-- Protocol bounds on a packet value: integers fit their wire width, length
fields agree with the data they describe, and the conditional fields of
`PulseResp` and `MailboxNextResp` are present exactly when their deku `cond`
holds.  These are the invariants every packet built by the Rust constructors
and every packet produced by the decoder satisfies. -/
def Wellformed : MoonlightPacket → Prop
  | .CloseConnection _ => True
  | .Connect _ pv _ fid did ds =>
      pv < 256 ∧ fid.length = 8 ∧ did.length = 10 ∧ ds.length = 36 ∧
      (∀ b ∈ fid, b < 256) ∧ (∀ b ∈ did, b < 256) ∧ (∀ b ∈ ds, b < 256)
  | .Connected _ _ => True
  | .Unauthorized _ => True
  | .ConnectFailed _ => True
  | .Heartbeat v => v < 256
  | .HeartbeatAck _ => True
  | .Pulse _ pid nl nm plen pl =>
      pid < 2 ^ 64 ∧ nl = nm.length ∧ nm.length < 256 ∧
      plen = pl.length ∧ pl.length < 2 ^ 32 ∧
      (∀ b ∈ nm, b < 256) ∧ (∀ b ∈ pl, b < 256)
  | .PulseResp s pid er =>
      pid < 2 ^ 64 ∧ (s = true → er = none) ∧ (s = false → ∃ r, er = some r)
  | .NewMailEvent size pid => size < 2 ^ 16 ∧ pid < 2 ^ 64
  | .MailboxNext _ txn => txn < 2 ^ 64
  | .MailboxNextResp ho s txn size pid nl nm plen pl =>
      txn < 2 ^ 64 ∧ size < 2 ^ 16 ∧
      ((s = true ∧ 0 < size) →
        ∃ v l, pid = some v ∧ v < 2 ^ 64 ∧ nm = some l ∧ nl = some l.length ∧
          l.length < 256 ∧ (∀ b ∈ l, b < 256)) ∧
      (¬(s = true ∧ 0 < size) → pid = none ∧ nl = none ∧ nm = none) ∧
      ((s = true ∧ ho = false ∧ 0 < size) →
        ∃ l, pl = some l ∧ plen = some l.length ∧ l.length < 2 ^ 32 ∧
          (∀ b ∈ l, b < 256)) ∧
      (¬(s = true ∧ ho = false ∧ 0 < size) → plen = none ∧ pl = none)
  | .AckMail pid _ => pid < 2 ^ 64
  | .AckMailResp _ size pid _ => size < 2 ^ 16 ∧ pid < 2 ^ 64

def pCloseConnection : Parser MoonlightPacket :=
  pbind pbyte (fun fl => ppure (.CloseConnection (decide (fl % 2 = 1))))

def pConnect : Parser MoonlightPacket :=
  pbind pbyte (fun fl =>
  pbind pbyte (fun pv =>
  pbind pSerializationFormat (fun sf =>
  pbind (pbytes 8) (fun fid =>
  pbind (pbytes 10) (fun did =>
  pbind (pbytes 36) (fun ds =>
  ppure (.Connect (decide (fl % 2 = 1)) pv sf fid did ds)))))))

def pConnected : Parser MoonlightPacket :=
  pbind pbyte (fun fl =>
  ppure (.Connected (decide (fl / 2 % 2 = 1)) (decide (fl % 2 = 1))))

def pUnauthorized : Parser MoonlightPacket :=
  pbind pbyte (fun _ =>
  pbind pUnauthorizedError (fun r => ppure (.Unauthorized r)))

def pConnectFailed : Parser MoonlightPacket :=
  pbind pbyte (fun _ =>
  pbind pConnectFailedError (fun r => ppure (.ConnectFailed r)))

def pHeartbeat : Parser MoonlightPacket :=
  pbind pbyte (fun v => ppure (.Heartbeat v))

def pHeartbeatAck : Parser MoonlightPacket :=
  pbind pbyte (fun fl => ppure (.HeartbeatAck (decide (fl % 2 = 1))))

def pPulse : Parser MoonlightPacket :=
  pbind pbyte (fun _ =>
  pbind pPulseType (fun pt =>
  pbind (pbeNat 8) (fun pid =>
  pbind pbyte (fun nl =>
  pbind (pbytes nl) (fun nm =>
  pbind (pbeNat 4) (fun plen =>
  pbind (pbytes plen) (fun pl =>
  ppure (.Pulse pt pid nl nm plen pl))))))))

def pPulseResp : Parser MoonlightPacket :=
  pbind pbyte (fun fl =>
  pbind (pbeNat 8) (fun pid =>
  pbind (popt (!decide (fl % 2 = 1)) pPulseErrorReason) (fun er =>
  ppure (.PulseResp (decide (fl % 2 = 1)) pid er))))

def pNewMailEvent : Parser MoonlightPacket :=
  pbind pbyte (fun _ =>
  pbind (pbeNat 2) (fun size =>
  pbind (pbeNat 8) (fun pid =>
  ppure (.NewMailEvent size pid))))

def pMailboxNext : Parser MoonlightPacket :=
  pbind pbyte (fun fl =>
  pbind (pbeNat 8) (fun txn =>
  ppure (.MailboxNext (decide (fl % 2 = 1)) txn)))

def pMailboxNextResp : Parser MoonlightPacket :=
  pbind pbyte (fun fl =>
  pbind (pbeNat 8) (fun txn =>
  pbind (pbeNat 2) (fun size =>
  pbind (popt (decide (fl % 2 = 1) && decide (0 < size)) (pbeNat 8)) (fun pid =>
  pbind (popt (decide (fl % 2 = 1) && decide (0 < size)) pbyte) (fun nl =>
  pbind (popt (decide (fl % 2 = 1) && decide (0 < size)) (pbytes (nl.getD 0))) (fun nm =>
  pbind (popt (decide (fl % 2 = 1) && !decide (fl / 2 % 2 = 1) && decide (0 < size))
      (pbeNat 4)) (fun plen =>
  pbind (popt (decide (fl % 2 = 1) && !decide (fl / 2 % 2 = 1) && decide (0 < size))
      (pbytes (plen.getD 0))) (fun pl =>
  ppure (.MailboxNextResp (decide (fl / 2 % 2 = 1)) (decide (fl % 2 = 1))
    txn size pid nl nm plen pl)))))))))

def pAckMail : Parser MoonlightPacket :=
  pbind pbyte (fun _ =>
  pbind (pbeNat 8) (fun pid =>
  pbind pMailAckType (fun ack =>
  ppure (.AckMail pid ack))))

def pAckMailResp : Parser MoonlightPacket :=
  pbind pbyte (fun fl =>
  pbind (pbeNat 2) (fun size =>
  pbind (pbeNat 8) (fun pid =>
  pbind pMailAckType (fun ack =>
  ppure (.AckMailResp (decide (fl % 2 = 1)) size pid ack)))))

/-- Variant body parser selected by the tag byte; an unknown tag is a
malformed-input error (matching deku's unmatched enum id). -/
def packetBody (tag : Nat) : Parser MoonlightPacket :=
  if tag = 1 then pCloseConnection
  else if tag = 2 then pConnect
  else if tag = 3 then pConnected
  else if tag = 4 then pUnauthorized
  else if tag = 5 then pConnectFailed
  else if tag = 8 then pHeartbeat
  else if tag = 9 then pHeartbeatAck
  else if tag = 10 then pPulse
  else if tag = 11 then pPulseResp
  else if tag = 20 then pNewMailEvent
  else if tag = 21 then pMailboxNext
  else if tag = 22 then pMailboxNextResp
  else if tag = 25 then pAckMail
  else if tag = 26 then pAckMailResp
  else pfail

/-- Full packet parser: one tag byte, then the variant body. -/
def parsePacket : Parser MoonlightPacket :=
  pbind pbyte packetBody

/-- Outcome of `Codec::decode`: `Ok(Some((packet, consumed)))`,
`Ok(None)` (incomplete), or `Err` (malformed). -/
inductive DecodeOutcome : Type where
  | ok (p : MoonlightPacket) (consumed : Nat)
  | needMore
  | err
  deriving DecidableEq

/-- The Rust `Codec::decode`: run the packet parser and report the consumed
length as input length minus rest length. -/
def Codec.decode (bs : List Nat) : DecodeOutcome :=
  match parsePacket bs with
  | .ok p rest => .ok p (bs.length - rest.length)
  | .incomplete => .needMore
  | .error => .err

/-- The Rust `Codec::feed`: append received bytes to the buffer. -/
def Codec.feed (buffer data : List Nat) : List Nat := buffer ++ data

/-- Fuel-indexed drain loop of `Codec::process_packets`: repeatedly decode
from offset 0; on success collect the packet and drop the consumed prefix;
on incomplete stop, keeping the tail; on error report failure (third
component false, mirroring the `Err` return).  The fuel only bounds the
number of iterations; `process_packets` supplies enough for any input. -/
def processFuel : Nat → List Nat → List MoonlightPacket × List Nat × Bool
  | 0, bs => ([], bs, true)
  | fuel + 1, bs =>
    match parsePacket bs with
    | .ok p rest =>
      let r := processFuel fuel rest
      (p :: r.1, r.2)
    | .incomplete => ([], bs, true)
    | .error => ([], bs, false)

/-- The Rust `Codec::process_packets` on a buffer: returns the decoded
packets in order, the retained tail, and whether the drain succeeded
(false = decode error). -/
def process_packets (bs : List Nat) : List MoonlightPacket × List Nat × Bool :=
  processFuel (bs.length + 1) bs

/-- One feed-then-drain step: append the chunk to the buffer, drain, and
accumulate the decoded packets; `none` models a decode error (fatal). -/
def feedDrainStep (acc : Option (List MoonlightPacket × List Nat))
    (c : List Nat) : Option (List MoonlightPacket × List Nat) :=
  acc.bind (fun s =>
    let r := process_packets (Codec.feed s.2 c)
    if r.2.2 then some (s.1 ++ r.1, r.2.1) else none)

/-- Feed a sequence of byte chunks through a fresh codec, draining after each
feed and accumulating the decoded packets; `none` models a decode error. -/
def runChunks (chunks : List (List Nat)) : Option (List MoonlightPacket × List Nat) :=
  chunks.foldl feedDrainStep (some ([], []))

/-- A fed buffer whose Pulse frame header declares `payload_len` = 2^32 - 1
(about 4 GiB, above any few-MB cap): tag 10, pad byte, pulse type 0,
pulse id 1, name length 1, name byte 65, payload length 4294967295. -/
def oversizedPulseHeader : List Nat :=
  10 :: 0 :: 0 :: (beBytes 8 1 ++ 1 :: (65 :: beBytes 4 4294967295))

/-- Whether `b1` is a UTF-8 continuation byte (0x80..0xBF). -/
def isContByte (b : Nat) : Bool := 128 ≤ b && b < 192

/-- UTF-8 validity of a byte list, following RFC 3629 as enforced by Rust's
`String::from_utf8` (shortest forms only, surrogates excluded, max U+10FFFF). -/
def utf8Valid : List Nat → Bool
  | [] => true
  | b :: rest =>
    if b < 128 then utf8Valid rest
    else if b < 194 then false
    else if b < 224 then
      match rest with
      | b1 :: r => isContByte b1 && utf8Valid r
      | [] => false
    else if b = 224 then
      match rest with
      | b1 :: b2 :: r => (160 ≤ b1 && b1 < 192) && (isContByte b2 && utf8Valid r)
      | _ => false
    else if b < 237 then
      match rest with
      | b1 :: b2 :: r => isContByte b1 && (isContByte b2 && utf8Valid r)
      | _ => false
    else if b = 237 then
      match rest with
      | b1 :: b2 :: r => (128 ≤ b1 && b1 < 160) && (isContByte b2 && utf8Valid r)
      | _ => false
    else if b < 240 then
      match rest with
      | b1 :: b2 :: r => isContByte b1 && (isContByte b2 && utf8Valid r)
      | _ => false
    else if b = 240 then
      match rest with
      | b1 :: b2 :: b3 :: r =>
        (144 ≤ b1 && b1 < 192) && (isContByte b2 && (isContByte b3 && utf8Valid r))
      | _ => false
    else if b < 244 then
      match rest with
      | b1 :: b2 :: b3 :: r =>
        isContByte b1 && (isContByte b2 && (isContByte b3 && utf8Valid r))
      | _ => false
    else if b = 244 then
      match rest with
      | b1 :: b2 :: b3 :: r =>
        (128 ≤ b1 && b1 < 144) && (isContByte b2 && (isContByte b3 && utf8Valid r))
      | _ => false
    else false

/-- A mail record as delivered to callers.  The payload type `J` abstracts
`serde_json::Value`; the name is kept as its wire bytes (the Rust `String`
holds exactly these bytes once UTF-8 validation has succeeded). -/
structure Mail (J : Type) : Type where
  pulse_id : Nat
  name : List Nat
  payload : Option J
  mailbox_size : Nat
  deriving DecidableEq

/-- Values sent on a caller's reply channel. -/
inductive ReturnChanResult (J : Type) : Type where
  | Ok
  | Err (msg : String)
  | Timeout
  | Mail (m : Option (Mail J))
  | MailAckSuccessful (more : Bool)
  deriving DecidableEq

/-- Display strings of `PulseErrorReason` (thiserror messages). -/
def PulseErrorReason.msg : PulseErrorReason → String
  | .Unknown => "unknown_error: An unknown error occurred while sending the packet."
  | .DeserializationFailed =>
      "deserialization_failed: The Fostrom server failed to deserialize the packet correctly."
  | .PacketSchemaNotFound =>
      "packet_schema_not_found: There is no Packet Schema associated with the name provided."
  | .PacketSchemaTypeMismatch =>
      "packet_schema_type_mismatch: The Packet Schema does exist but not of the type provided."

/-- Display strings of `MailAckType` (strum serializations). -/
def MailAckType.display : MailAckType → String
  | .Ack => "acknowledge"
  | .Reject => "reject"
  | .Requeue => "requeue"

/-- Display string of `GeneralErrors::AckMailFailed`. -/
def ackMailFailedMsg (pulse_id : Nat) (ack : MailAckType) : String :=
  "mail_ack_failed: Failed to " ++ ack.display ++ " the mail with ID " ++
    toString pulse_id ++ "."

/-- Display string of `GeneralErrors::DuplicateReq`. -/
def duplicateReqMsg : String :=
  "duplicate_request: A request with the same transaction ID has already been queued."

/-- The variants the client handles from the server (`ServerResp`), with the
Rust `Result` payloads rendered as `Except`. -/
inductive ServerResp (J : Type) : Type where
  | ForceCloseSocket
  | Connected (mail_available : Bool)
  | Disconnected (r : DisconnectedReason)
  | HeartbeatAck
  | NewMail
  | PulseResp (r : Except (Nat × PulseErrorReason) Nat)
  | AckMailResp (r : Except (Nat × MailAckType) (Nat × Bool))
  | MailboxNext (r : Except Nat (Nat × Option (Mail J)))

/-- The Rust `ServerResp::handle_packet`: translate a decoded packet into the
client-level response.  `parseJson` abstracts the composite
`String::from_utf8` + `serde_json::from_str::<Option<Value>>().unwrap_or_default()`
applied to payload bytes: it returns `some v` exactly when the bytes are a
JSON document deserializing to a present value. -/
def ServerResp.handle_packet {J : Type} (parseJson : List Nat → Option J) :
    MoonlightPacket → ServerResp J
  | .CloseConnection true => .Disconnected .NormalDisconnect
  | .ConnectFailed r => .Disconnected (.ConnectFailed r)
  | .Unauthorized r => .Disconnected (.Unauthorized r)
  | .Connected mail_available _ => .Connected mail_available
  | .HeartbeatAck _ => .HeartbeatAck
  | .PulseResp s pid er =>
      .PulseResp
        (if s then .ok pid
         else match er with
           | some r => .error (pid, r)
           | none => .error (pid, .Unknown))
  | .AckMailResp s size pid ack =>
      .AckMailResp (if s then .ok (pid, decide (0 < size)) else .error (pid, ack))
  | .MailboxNextResp ho s txn size pid _ nm _ pl =>
      if s = true ∧ size ≠ 0 then
        match pid with
        | none => .MailboxNext (.error txn)
        | some pulse_id =>
          match nm with
          | none => .MailboxNext (.error txn)
          | some nameBytes =>
            if utf8Valid nameBytes then
              if ho then
                .MailboxNext (.ok (txn, some ⟨pulse_id, nameBytes, none, size⟩))
              else
                .MailboxNext (.ok (txn, some
                  ⟨pulse_id, nameBytes,
                    (match pl with | some b => parseJson b | none => none), size⟩))
            else .MailboxNext (.error txn)
      else if s = true ∧ size = 0 then .MailboxNext (.ok (txn, none))
      else .MailboxNext (.error txn)
  | .NewMailEvent _ _ => .NewMail
  | _ => .ForceCloseSocket

/-- The engine state mutated by `ClientLogic`: the transaction id counter, the
pending-transaction table (key, created-at instant in ms, reply-channel id),
the codec buffer, and the authenticated flag.  `Instant`s are modelled as
milliseconds; reply channels as opaque numeric identifiers. -/
structure ClientLogicState : Type where
  next_txn_id : Nat
  pending_txns : List (Nat × Nat × Nat)
  codecBuffer : List Nat
  authenticated : Bool
  deriving DecidableEq

/-- Fresh engine state as built by `ClientLogic::new`. -/
def ClientLogicState.init : ClientLogicState :=
  { next_txn_id := 0, pending_txns := [], codecBuffer := [], authenticated := false }

/-- Key lookup in the pending-transaction table (HashMap `get`). -/
def pendingLookup (l : List (Nat × Nat × Nat)) (k : Nat) : Option (Nat × Nat) :=
  (l.find? (fun e => e.1 == k)).map (fun e => e.2)

/-- Key membership in the pending-transaction table (HashMap `contains_key`). -/
def pendingContains (l : List (Nat × Nat × Nat)) (k : Nat) : Bool :=
  (pendingLookup l k).isSome

/-- Key removal from the pending-transaction table (HashMap `remove`). -/
def pendingRemove (l : List (Nat × Nat × Nat)) (k : Nat) : List (Nat × Nat × Nat) :=
  l.filter (fun e => e.1 != k)

/-- Observable side effects the engine emits while handling one event:
bytes sent to the transport writer, completions of reply channels,
notifications, and heartbeat-ack signals on the ping channel. -/
inductive Output (J : Type) : Type where
  | transportWrite (bytes : List Nat)
  | reply (chan : Nat) (r : ReturnChanResult J)
  | notify (event : String) (payload : String)
  | ping
  deriving DecidableEq

/-- How handling one server response ends: continue the loop, return a
disconnect reason, or hit the `unreachable!()` (steady-state `Connected`). -/
inductive RespEffect : Type where
  | normal
  | disconnect (r : DisconnectedReason)
  | panicked
  deriving DecidableEq

/-- The Rust `ClientLogic::resolve_txn`: when the key is pending, send the
value on its reply channel and remove the entry; otherwise do nothing. -/
def resolve_txn {J : Type} (st : ClientLogicState) (txn_id : Nat)
    (v : ReturnChanResult J) : ClientLogicState × List (Output J) :=
  match pendingLookup st.pending_txns txn_id with
  | some (_, chan) =>
      ({ st with pending_txns := pendingRemove st.pending_txns txn_id },
        [.reply chan v])
  | none => (st, [])

/-- The Rust `ClientLogic::handle_server_resp`. -/
def handle_server_resp {J : Type} (st : ClientLogicState) :
    ServerResp J → ClientLogicState × List (Output J) × RespEffect
  | .ForceCloseSocket => (st, [], .disconnect .ForceCloseSocket)
  | .Disconnected r => (st, [], .disconnect r)
  | .Connected _ => (st, [], .panicked)
  | .HeartbeatAck => (st, [.ping], .normal)
  | .NewMail => (st, [.notify "new_mail" ""], .normal)
  | .PulseResp (.ok txn) =>
      let r := resolve_txn st txn .Ok
      (r.1, r.2, .normal)
  | .PulseResp (.error (txn, reason)) =>
      let r := resolve_txn st txn (.Err reason.msg)
      (r.1, r.2, .normal)
  | .AckMailResp (.ok (pid, more)) =>
      let r := resolve_txn st pid (.MailAckSuccessful more)
      (r.1, r.2, .normal)
  | .AckMailResp (.error (pid, ack)) =>
      let r := resolve_txn st pid (.Err (ackMailFailedMsg pid ack))
      (r.1, r.2, .normal)
  | .MailboxNext (.ok (txn, m)) =>
      let r := resolve_txn st txn (.Mail m)
      (r.1, r.2, .normal)
  | .MailboxNext (.error txn) =>
      let r := resolve_txn st txn (.Err "failed: Failed to fetch next mail")
      (r.1, r.2, .normal)

/-- The transaction key a response frame resolves: `pulse_id` for
`PulseResp`/`AckMailResp`, `txn_id` for `MailboxNextResp`; none for
non-transaction responses. -/
def respTxnKey {J : Type} : ServerResp J → Option Nat
  | .PulseResp (.ok txn) => some txn
  | .PulseResp (.error (txn, _)) => some txn
  | .AckMailResp (.ok (pid, _)) => some pid
  | .AckMailResp (.error (pid, _)) => some pid
  | .MailboxNext (.ok (txn, _)) => some txn
  | .MailboxNext (.error txn) => some txn
  | _ => none

/-- Remove-and-notify loop of `ClientLogic::refresh`: for each collected
timed-out key, remove its entry and send `Timeout` on its reply channel. -/
def refreshLoop {J : Type} :
    List Nat → List (Nat × Nat × Nat) → List (Nat × Nat × Nat) × List (Output J)
  | [], p => (p, [])
  | k :: ks, p =>
    match pendingLookup p k with
    | some (_, chan) =>
      let r := refreshLoop ks (pendingRemove p k)
      (r.1, .reply chan .Timeout :: r.2)
    | none => refreshLoop ks p

/-- The Rust `ClientLogic::refresh`: collect the ids of entries older than
10 s (strictly), then remove each and notify its caller with `Timeout`.
`now` is the current instant in milliseconds; `Instant::duration_since`
saturates at zero, matching natural-number subtraction. -/
def ClientLogic.refresh {J : Type} (now : Nat) (st : ClientLogicState) :
    ClientLogicState × List (Output J) :=
  let timed_out :=
    ((st.pending_txns.filter (fun e => decide (10000 < now - e.2.1))).map (fun e => e.1))
  let r := refreshLoop timed_out st.pending_txns
  ({ st with pending_txns := r.1 }, r.2)

/-- The Rust `ClientLogic::next_txn_id`: return the counter and advance it
with wrapping u64 increment. -/
def nextTxnIdStep (st : ClientLogicState) : Nat × ClientLogicState :=
  (st.next_txn_id, { st with next_txn_id := (st.next_txn_id + 1) % 2 ^ 64 })

/-- Collision-probing loop of `push_txn`: up to `fuel` times, if the current
id is already pending take the next id, else stop. -/
def probeTxn : Nat → ClientLogicState → Nat → ClientLogicState × Nat
  | 0, st, id0 => (st, id0)
  | fuel + 1, st, id0 =>
    if pendingContains st.pending_txns id0 then
      let n := nextTxnIdStep st
      probeTxn fuel n.2 n.1
    else (st, id0)

/-- The Rust `ClientLogic::push_txn`: allocate a transaction id (probing up to
three successors on collision); on exhaustion send `txn_failed` to the caller
and fail, otherwise record the pending entry. -/
def push_txn {J : Type} (now : Nat) (st : ClientLogicState) (chan : Nat) :
    ClientLogicState × List (Output J) × Option Nat :=
  let n := nextTxnIdStep st
  let pr := probeTxn 3 n.2 n.1
  if pendingContains pr.1.pending_txns pr.2 then
    (pr.1, [.reply chan (.Err "txn_failed: Transaction ID Exhaustion")], none)
  else
    ({ pr.1 with pending_txns := (pr.2, now, chan) :: pr.1.pending_txns },
      [], some pr.2)

/-- Commands callers can send (`ClientCmd`), reply channels as identifiers. -/
inductive ClientCmd (J : Type) : Type where
  | SendPulse (pulse_type : PulseType) (name : List Nat) (payload : Option J)
      (chan : Nat)
  | MailboxNext (header_only : Bool) (chan : Nat)
  | MailOp (ack : MailAckType) (pulse_id : Nat) (chan : Nat)

/-- The Rust `ClientLogic::handle_cmd`.  `toJson` abstracts
`serde_json::to_string` on the caller-provided payload; names and payloads
are byte strings.  The boolean result mirrors `Result<()>` (false = the
`Err` that makes the event loop disconnect with force-close). -/
def ClientLogic.handle_cmd {J : Type} (toJson : J → List Nat) (now : Nat)
    (st : ClientLogicState) :
    ClientCmd J → ClientLogicState × List (Output J) × Bool
  | .SendPulse pulse_type name payload chan =>
    if 255 < name.length then
      (st, [.reply chan
        (.Err "invalid_name: Pulse Name needs to be under 255 characters.")], true)
    else
      let pl := match payload with
        | some j => toJson j
        | none => []
      match push_txn now st chan with
      | (st1, outs, none) => (st1, outs, false)
      | (st1, outs, some txn) =>
        (st1, outs ++ [.transportWrite
          (MoonlightPacket.encode
            (.Pulse pulse_type txn name.length name (pl.length % 2 ^ 32) pl))], true)
  | .MailboxNext header_only chan =>
    match push_txn now st chan with
    | (st1, outs, none) => (st1, outs, false)
    | (st1, outs, some txn) =>
      (st1, outs ++ [.transportWrite
        (MoonlightPacket.encode (.MailboxNext header_only txn))], true)
  | .MailOp ack pulse_id chan =>
    if pendingContains st.pending_txns pulse_id then
      (st, [.reply chan (.Err duplicateReqMsg)], true)
    else
      ({ st with pending_txns := (pulse_id, now, chan) :: st.pending_txns },
        [.transportWrite (MoonlightPacket.encode (.AckMail pulse_id ack))], true)

/-- Events the engine consumes from its mailbox channel (`ClientEvent`). -/
inductive ClientEvent (J : Type) : Type where
  | Refresh
  | HeartbeatTick
  | TransportRecv (bytes : List Nat)
  | TransportClose
  | Cmd (cmd : ClientCmd J)

/-- Handle a list of decoded packets in order through
`handle_server_resp`, stopping at the first disconnect or panic
(the `for packet in packets` loops in the Rust source). -/
def handle_resps {J : Type} (parseJson : List Nat → Option J)
    (st : ClientLogicState) :
    List MoonlightPacket → ClientLogicState × List (Output J) × RespEffect
  | [] => (st, [], .normal)
  | p :: ps =>
    let r := handle_server_resp st (ServerResp.handle_packet parseJson p)
    match r.2.2 with
    | .normal =>
      let r2 := handle_resps parseJson r.1 ps
      (r2.1, r.2.1 ++ r2.2.1, r2.2.2)
    | e => (r.1, r.2.1, e)

/-- How `wait_for_authentication` ends: `Ok(())`, `Err(reason)`, or a panic
while handling trailing packets. -/
inductive AuthResult : Type where
  | ok
  | err (r : DisconnectedReason)
  | panicked
  deriving DecidableEq

/-- The receive loop of `ClientLogic::wait_for_authentication` over a timed
event sequence.  Each list element is `(arrival instant in ms, event)`,
arrival instants non-decreasing; `lastT` is the instant the previous
`recv_timeout` returned (event processing is instantaneous), so the next
receive times out — ending the loop with force-close — exactly when the next
event arrives more than 10 s later (or never: empty list). -/
def waitAuthLoop {J : Type} (parseJson : List Nat → Option J) :
    ClientLogicState → Nat → List (Nat × ClientEvent J) →
      AuthResult × ClientLogicState × List (Output J)
  | st, _, [] => (.err .ForceCloseSocket, st, [])
  | st, lastT, (t, ev) :: rest =>
    if lastT + 10000 < t then (.err .ForceCloseSocket, st, [])
    else
      match ev with
      | .TransportRecv bytes =>
        let r := process_packets (Codec.feed st.codecBuffer bytes)
        let st1 := { st with codecBuffer := r.2.1 }
        if r.2.2 = false then (.err .ForceCloseSocket, st1, [])
        else
          match r.1 with
          | [] => waitAuthLoop parseJson st1 t rest
          | p :: more =>
            match ServerResp.handle_packet parseJson p with
            | .Connected mail_available =>
              let st2 := { st1 with authenticated := true }
              let outs0 := Output.notify "connected" "" ::
                (if mail_available then [Output.notify "new_mail" ""] else [])
              let hr := handle_resps parseJson st2 more
              match hr.2.2 with
              | .normal => (.ok, hr.1, outs0 ++ hr.2.1)
              | .disconnect r0 => (.err r0, hr.1, outs0 ++ hr.2.1)
              | .panicked => (.panicked, hr.1, outs0 ++ hr.2.1)
            | .Disconnected r0 => (.err r0, st1, [])
            | _ => (.err .ForceCloseSocket, st1, [])
      | _ => (.err .ForceCloseSocket, st, [])

/-- The Rust `ClientLogic::wait_for_authentication`: write the encoded
Connect packet to the transport, then run the receive loop starting at
instant 0. -/
def ClientLogic.wait_for_authentication {J : Type} (parseJson : List Nat → Option J)
    (connectBytes : List Nat) (st : ClientLogicState)
    (events : List (Nat × ClientEvent J)) :
    AuthResult × ClientLogicState × List (Output J) :=
  let r := waitAuthLoop parseJson st 0 events
  (r.1, r.2.1, Output.transportWrite connectBytes :: r.2.2)

/-- Timed event sequence in which the decisive first frame (Connected,
split into two one-byte reads) only completes 18 s after authentication
started, with each event within 10 s of the previous receive. -/
def slowAuthEvents : List (Nat × ClientEvent Unit) :=
  [(9000, .TransportRecv [3]), (18000, .TransportRecv [3])]

/-- The Rust `MoonlightClient::backoff`: given the stored `reconnect_in`
(milliseconds) and whether the disconnect was `Unauthorized`, return the
sleep to take now and the new stored value.  Unauthorized jumps to 5 min and
returns 5 min; otherwise the sleep is the stored value (0 when absent) and
the stored value advances one slot along 1 s, 2.5 s, 5 s, 10 s, 15 s, 30 s. -/
def MoonlightClient.backoff (reconnect_in : Option Nat) (unauthorized : Bool) :
    Nat × Option Nat :=
  if unauthorized then (300000, some 300000)
  else
    let r := reconnect_in.getD 0
    let next : Nat :=
      if r = 0 then 1000
      else if r = 1000 then 2500
      else if r = 2500 then 5000
      else if r = 5000 then 10000
      else if r = 10000 then 15000
      else if r = 15000 then 30000
      else 30000
    (r, some next)

/-- Iterated backoff: the sleeps taken across a sequence of disconnects
(true = unauthorized), starting from a stored `reconnect_in`. -/
def backoffRun : Option Nat → List Bool → List Nat
  | _, [] => []
  | st, u :: rest =>
    let r := MoonlightClient.backoff st u
    r.1 :: backoffRun r.2 rest

/-- The reset of the backoff schedule performed on successful authentication
(`*self.reconnect_in.lock().unwrap() = None`). -/
def MoonlightClient.resetBackoff : Option Nat := none

/-- Credential validation error kinds (`CredErr`). -/
inductive CredErr : Type where
  | FleetIDMissing
  | FleetIDInvalid
  | DeviceIDMissing
  | DeviceIDInvalid
  | DeviceSecretMissing
  | DeviceSecretInvalid
  deriving DecidableEq

/-- Rust `char::is_alphanumeric` (`is_alphabetic || is_numeric`) on the
Basic Latin and Latin-1 ranges (code points below U+0100), where it holds
exactly of the ASCII digits and letters, the Latin-1 letters U+00AA,
U+00B5, U+00BA, U+00C0-U+00D6, U+00D8-U+00F6 and U+00F8-U+00FF, and the
Latin-1 numeric characters U+00B2, U+00B3, U+00B9 and U+00BC-U+00BE. The
credential theorems quantify only over these ranges; higher code points
consult Unicode tables not part of this repository. -/
def rustIsAlphanumeric (c : Char) : Bool :=
  let n := c.toNat
  ((48 ≤ n && n ≤ 57) || (65 ≤ n && n ≤ 90) || (97 ≤ n && n ≤ 122)) ||
  (n == 170 || n == 181 || n == 186) ||
  (n == 178 || n == 179 || n == 185 || (188 ≤ n && n ≤ 190)) ||
  ((192 ≤ n && n ≤ 214) || (216 ≤ n && n ≤ 246) || (248 ≤ n && n ≤ 255))

/-- UTF-8 byte width of a character, by code point. -/
def charUtf8Size (c : Char) : Nat :=
  if c.toNat < 128 then 1
  else if c.toNat < 2048 then 2
  else if c.toNat < 65536 then 3
  else 4

/-- Rust `str::len`: the UTF-8 byte length of a string. -/
def byteLen (s : List Char) : Nat := (s.map charUtf8Size).sum

/-- The Rust `Creds::validate_fleet_id`. -/
def validate_fleet_id (fleet_id : List Char) : Except CredErr Unit :=
  if fleet_id.isEmpty then .error .FleetIDMissing
  else if byteLen fleet_id ≠ 8 ∨ ¬(fleet_id.all rustIsAlphanumeric = true) then
    .error .FleetIDInvalid
  else .ok ()

/-- The Rust `Creds::validate_device_id`. -/
def validate_device_id (device_id : List Char) : Except CredErr Unit :=
  if device_id.isEmpty then .error .DeviceIDMissing
  else if byteLen device_id ≠ 10 ∨ ¬(device_id.all rustIsAlphanumeric = true) then
    .error .DeviceIDInvalid
  else .ok ()

/-- The Rust `Creds::validate_device_secret` (`starts_with("FOS-")` plus all
characters after the first four alphanumeric). -/
def validate_device_secret (device_secret : List Char) : Except CredErr Unit :=
  if device_secret.isEmpty then .error .DeviceSecretMissing
  else if byteLen device_secret ≠ 36 ∨
      ¬(device_secret.take 4 = ['F', 'O', 'S', '-']) ∨
      ¬((device_secret.drop 4).all rustIsAlphanumeric = true) then
    .error .DeviceSecretInvalid
  else .ok ()

/-- A validated credential triple (`Creds`). -/
structure Creds : Type where
  fleet_id : List Char
  device_id : List Char
  device_secret : List Char
  prod : Bool
  deriving DecidableEq

/-- The Rust `Creds::new`: build the record and validate the three fields in
order fleet id, device id, device secret. -/
def Creds.new (fleet_id device_id device_secret : List Char) (prod : Bool) :
    Except CredErr Creds :=
  match validate_fleet_id fleet_id with
  | .error e => .error e
  | .ok _ =>
    match validate_device_id device_id with
    | .error e => .error e
    | .ok _ =>
      match validate_device_secret device_secret with
      | .error e => .error e
      | .ok _ => .ok ⟨fleet_id, device_id, device_secret, prod⟩

/-- Spec-side reading of a valid fleet id, amended to what the code
enforces: exactly 8 UTF-8 bytes, every character alphanumeric (the
original character-count reading is refuted below: 7 characters can
occupy 8 bytes). -/
def SpecFleetIdOk (s : List Char) : Prop :=
  byteLen s = 8 ∧ ∀ c ∈ s, rustIsAlphanumeric c = true

/-- Spec-side reading of a valid device id, amended: exactly 10 UTF-8
bytes, every character alphanumeric. -/
def SpecDeviceIdOk (s : List Char) : Prop :=
  byteLen s = 10 ∧ ∀ c ∈ s, rustIsAlphanumeric c = true

/-- Spec-side reading of a valid device secret, amended: exactly 36 UTF-8
bytes, beginning with FOS-, every character after the first four
alphanumeric. -/
def SpecDeviceSecretOk (s : List Char) : Prop :=
  byteLen s = 36 ∧ s.take 4 = ['F', 'O', 'S', '-'] ∧
    ∀ c ∈ s.drop 4, rustIsAlphanumeric c = true

/-- Well-behavedness of a streaming parser: extending the input extends the
unconsumed rest unchanged (mono), a successful parse is determined by its
consumed prefix (split), and every proper prefix of an exactly-consumed
input reports incomplete (inc). -/
structure GoodP {α : Type} (p : Parser α) : Prop where
  mono : ∀ bs a rest t, p bs = .ok a rest → p (bs ++ t) = .ok a (rest ++ t)
  split : ∀ bs a rest, p bs = .ok a rest → ∃ c, bs = c ++ rest ∧ p c = .ok a []
  inc : ∀ c a, p c = .ok a [] → ∀ t, t <+: c → t ≠ c → p t = .incomplete

theorem ppure_eval {α : Type} (a : α) (bs : List Nat) : ppure a bs = .ok a bs := rfl

theorem pbyte_cons (b : Nat) (r : List Nat) : pbyte (b :: r) = .ok b r := rfl

theorem pbyte_nil : pbyte [] = .incomplete := rfl

theorem pbind_eval {α β : Type} {p : Parser α} {bs : List Nat} {a : α}
    {r : List Nat} (f : α → Parser β) (h : p bs = .ok a r) :
    pbind p f bs = f a r := by
  simp [pbind, h]

theorem pbind_incomplete {α β : Type} {p : Parser α} {bs : List Nat}
    (f : α → Parser β) (h : p bs = .incomplete) :
    pbind p f bs = .incomplete := by
  simp [pbind, h]

theorem pbind_error {α β : Type} {p : Parser α} {bs : List Nat}
    (f : α → Parser β) (h : p bs = .error) :
    pbind p f bs = .error := by
  simp [pbind, h]

theorem pbytes_exact {xs : List Nat} {n : Nat} (t : List Nat)
    (h : xs.length = n) : pbytes n (xs ++ t) = .ok xs t := by
  subst h
  simp [pbytes, List.take_append, List.drop_append]

theorem length_beBytes (w n : Nat) : (beBytes w n).length = w := by
  induction w generalizing n with
  | zero => rfl
  | succ w ih => simp [beBytes, ih]

theorem beVal_append_singleton (xs : List Nat) (b : Nat) :
    beVal (xs ++ [b]) = beVal xs * 256 + b := by
  simp [beVal, List.foldl_append]

theorem beVal_beBytes_mod (w n : Nat) : beVal (beBytes w n) = n % 256 ^ w := by
  induction w generalizing n with
  | zero => simp [beBytes, beVal, Nat.mod_one]
  | succ w ih =>
    rw [beBytes, beVal_append_singleton, ih, pow_succ']
    rw [Nat.mod_mul]
    omega

theorem beVal_beBytes {w n : Nat} (h : n < 256 ^ w) : beVal (beBytes w n) = n := by
  rw [beVal_beBytes_mod, Nat.mod_eq_of_lt h]

theorem beBytes_lt (w n : Nat) : ∀ b ∈ beBytes w n, b < 256 := by
  induction w generalizing n with
  | zero => simp [beBytes]
  | succ w ih =>
    intro b hb
    rw [beBytes] at hb
    rcases List.mem_append.1 hb with h | h
    · exact ih _ _ h
    · simp only [List.mem_singleton] at h
      subst h
      exact Nat.mod_lt _ (by norm_num)

theorem pbeNat_eval {w v : Nat} (t : List Nat) (h : v < 256 ^ w) :
    pbeNat w (beBytes w v ++ t) = .ok v t := by
  rw [pbeNat, pbind_eval _ (pbytes_exact t (length_beBytes w v)), ppure_eval,
    beVal_beBytes h]

theorem popt_true_eval {α : Type} {p : Parser α} {bs : List Nat} {a : α}
    {r : List Nat} (h : p bs = .ok a r) : popt true p bs = .ok (some a) r := by
  rw [popt, if_pos rfl, pbind_eval _ h, ppure_eval]

theorem popt_false_eval {α : Type} (p : Parser α) (bs : List Nat) :
    popt false p bs = .ok none bs := rfl

theorem good_pure {α : Type} (a : α) : GoodP (ppure a) := by
  constructor
  · intro bs b rest t h
    cases h
    rfl
  · intro bs b rest h
    obtain ⟨rfl, rfl⟩ : b = a ∧ rest = bs := by
      cases h
      exact ⟨rfl, rfl⟩
    exact ⟨[], rfl, rfl⟩
  · intro c b h t hpre hne
    obtain rfl : c = [] := by
      cases h
      rfl
    cases List.prefix_nil.1 hpre
    exact absurd rfl hne

theorem good_fail {α : Type} : GoodP (pfail : Parser α) := by
  constructor
  · intro bs a rest t h
    cases h
  · intro bs a rest h
    cases h
  · intro c a h
    cases h

theorem good_byte : GoodP pbyte := by
  constructor
  · intro bs a rest t h
    cases bs with
    | nil => simp [pbyte] at h
    | cons x r =>
      rw [pbyte_cons] at h
      injection h with h1 h2
      subst h1
      subst h2
      rfl
  · intro bs a rest h
    cases bs with
    | nil => simp [pbyte] at h
    | cons x r =>
      rw [pbyte_cons] at h
      injection h with h1 h2
      subst h1
      subst h2
      exact ⟨[x], rfl, rfl⟩
  · intro c a h t hpre hne
    cases c with
    | nil => simp [pbyte] at h
    | cons x r =>
      rw [pbyte_cons] at h
      injection h with h1 h2
      subst h1
      subst h2
      rcases List.prefix_cons_iff.1 hpre with rfl | ⟨t', rfl, ht'⟩
      · rfl
      · rw [List.prefix_nil] at ht'
        subst ht'
        exact absurd rfl hne

theorem good_bytes (n : Nat) : GoodP (pbytes n) := by
  constructor
  · intro bs a rest t h
    rw [pbytes] at h
    split at h
    · rename_i hle
      injection h with h1 h2
      subst h1
      subst h2
      rw [pbytes, if_pos (by simp only [List.length_append]; omega),
        List.take_append_of_le_length hle, List.drop_append_of_le_length hle]
    · exact absurd h (by simp)
  · intro bs a rest h
    rw [pbytes] at h
    split at h
    · rename_i hle
      injection h with h1 h2
      subst h1
      subst h2
      refine ⟨bs.take n, (List.take_append_drop n bs).symm, ?_⟩
      rw [pbytes, if_pos (by simp only [List.length_take]; omega)]
      congr 1
      · rw [List.take_take]
        simp
      · rw [List.drop_eq_nil_iff]
        simp only [List.length_take]
        omega
    · exact absurd h (by simp)
  · intro c a h t hpre hne
    rw [pbytes] at h
    split at h
    · rename_i hle
      injection h with h1 h2
      have hclen : c.length ≤ n := List.drop_eq_nil_iff.1 h2
      have htlen : t.length < c.length :=
        Nat.lt_of_le_of_ne hpre.length_le
          (fun hl => hne (hpre.eq_of_length hl))
      rw [pbytes, if_neg]
      omega
    · exact absurd h (by simp)

theorem prefixAppendCases {α : Type} {t c1 c2 : List α} (h : t <+: c1 ++ c2) :
    t <+: c1 ∨ ∃ t', t = c1 ++ t' ∧ t' <+: c2 := by
  induction c1 generalizing t with
  | nil => exact Or.inr ⟨t, by simp, by simpa using h⟩
  | cons a c1 ih =>
    cases t with
    | nil => exact Or.inl (List.nil_prefix)
    | cons b t'' =>
      rw [List.cons_append, List.cons_prefix_cons] at h
      obtain ⟨rfl, h2⟩ := h
      rcases ih h2 with h3 | ⟨t', rfl, ht'⟩
      · exact Or.inl (List.cons_prefix_cons.2 ⟨rfl, h3⟩)
      · exact Or.inr ⟨t', by simp, ht'⟩

theorem good_bind {α β : Type} {p : Parser α} {f : α → Parser β}
    (hp : GoodP p) (hf : ∀ a, GoodP (f a)) : GoodP (pbind p f) := by
  constructor
  · intro bs b rest t h
    rw [pbind] at h
    split at h
    · rename_i a r1 hp1
      rw [pbind_eval f (hp.mono _ _ _ t hp1)]
      exact (hf a).mono _ _ _ t h
    · cases h
    · cases h
  · intro bs b rest h
    rw [pbind] at h
    split at h
    · rename_i a r1 hp1
      obtain ⟨c1, rfl, hc1⟩ := hp.split _ _ _ hp1
      obtain ⟨c2, rfl, hc2⟩ := (hf a).split _ _ _ h
      refine ⟨c1 ++ c2, by rw [List.append_assoc], ?_⟩
      have : p (c1 ++ c2) = .ok a c2 := by
        have := hp.mono _ _ _ c2 hc1
        simpa using this
      rw [pbind_eval f this]
      exact hc2
    · cases h
    · cases h
  · intro c b h t hpre hne
    rw [pbind] at h
    split at h
    · rename_i a r1 hp1
      obtain ⟨c1, rfl, hc1⟩ := hp.split _ _ _ hp1
      rcases prefixAppendCases hpre with hpre1 | ⟨t', rfl, ht'⟩
      · by_cases hteq : t = c1
        · subst hteq
          rw [pbind_eval f hc1]
          have hr1 : r1 ≠ [] := by
            intro hr
            subst hr
            exact hne (by simp)
          exact (hf a).inc _ _ h [] (List.nil_prefix) (Ne.symm (by simpa using hr1))
        · rw [pbind_incomplete f (hp.inc _ _ hc1 t hpre1 hteq)]
      · have hαok : p (c1 ++ t') = .ok a t' := by
          have := hp.mono _ _ _ t' hc1
          simpa using this
        rw [pbind_eval f hαok]
        have ht'ne : t' ≠ r1 := by
          intro hr
          subst hr
          exact hne rfl
        exact (hf a).inc _ _ h t' ht' ht'ne
    · cases h
    · cases h

theorem good_popt {α : Type} (c : Bool) {p : Parser α} (hp : GoodP p) :
    GoodP (popt c p) := by
  cases c
  · simpa [popt] using good_pure (α := Option α) none
  · simpa [popt] using good_bind hp (fun a => good_pure (some a))

theorem good_pSerializationFormat : GoodP pSerializationFormat := by
  unfold pSerializationFormat
  apply good_bind good_byte
  intro b
  repeat' split
  all_goals first
    | exact good_pure _
    | exact good_fail

theorem good_pPulseType : GoodP pPulseType := by
  unfold pPulseType
  apply good_bind good_byte
  intro b
  repeat' split
  all_goals first
    | exact good_pure _
    | exact good_fail

theorem good_pUnauthorizedError : GoodP pUnauthorizedError := by
  unfold pUnauthorizedError
  apply good_bind good_byte
  intro b
  repeat' split
  all_goals first
    | exact good_pure _
    | exact good_fail

theorem good_pConnectFailedError : GoodP pConnectFailedError := by
  unfold pConnectFailedError
  apply good_bind good_byte
  intro b
  repeat' split
  all_goals first
    | exact good_pure _
    | exact good_fail

theorem good_pPulseErrorReason : GoodP pPulseErrorReason := by
  unfold pPulseErrorReason
  apply good_bind good_byte
  intro b
  repeat' split
  all_goals first
    | exact good_pure _
    | exact good_fail

theorem good_pMailAckType : GoodP pMailAckType := by
  unfold pMailAckType
  apply good_bind good_byte
  intro b
  repeat' split
  all_goals first
    | exact good_pure _
    | exact good_fail

theorem good_pbeNat (w : Nat) : GoodP (pbeNat w) := by
  unfold pbeNat
  exact good_bind (good_bytes w) (fun bs => good_pure _)

theorem good_pCloseConnection : GoodP pCloseConnection := by
  unfold pCloseConnection
  exact good_bind good_byte (fun fl => good_pure _)

theorem good_pConnect : GoodP pConnect := by
  unfold pConnect
  apply good_bind good_byte
  intro fl
  apply good_bind good_byte
  intro pv
  apply good_bind good_pSerializationFormat
  intro sf
  apply good_bind (good_bytes 8)
  intro fid
  apply good_bind (good_bytes 10)
  intro did
  apply good_bind (good_bytes 36)
  intro ds
  exact good_pure _

theorem good_pConnected : GoodP pConnected := by
  unfold pConnected
  exact good_bind good_byte (fun fl => good_pure _)

theorem good_pUnauthorized : GoodP pUnauthorized := by
  unfold pUnauthorized
  apply good_bind good_byte
  intro pad
  exact good_bind good_pUnauthorizedError (fun r => good_pure _)

theorem good_pConnectFailed : GoodP pConnectFailed := by
  unfold pConnectFailed
  apply good_bind good_byte
  intro pad
  exact good_bind good_pConnectFailedError (fun r => good_pure _)

theorem good_pHeartbeat : GoodP pHeartbeat := by
  unfold pHeartbeat
  exact good_bind good_byte (fun v => good_pure _)

theorem good_pHeartbeatAck : GoodP pHeartbeatAck := by
  unfold pHeartbeatAck
  exact good_bind good_byte (fun fl => good_pure _)

theorem good_pPulse : GoodP pPulse := by
  unfold pPulse
  apply good_bind good_byte
  intro pad
  apply good_bind good_pPulseType
  intro pt
  apply good_bind (good_pbeNat 8)
  intro pid
  apply good_bind good_byte
  intro nl
  apply good_bind (good_bytes nl)
  intro nm
  apply good_bind (good_pbeNat 4)
  intro plen
  apply good_bind (good_bytes plen)
  intro pl
  exact good_pure _

theorem good_pPulseResp : GoodP pPulseResp := by
  unfold pPulseResp
  apply good_bind good_byte
  intro fl
  apply good_bind (good_pbeNat 8)
  intro pid
  apply good_bind (good_popt _ good_pPulseErrorReason)
  intro er
  exact good_pure _

theorem good_pNewMailEvent : GoodP pNewMailEvent := by
  unfold pNewMailEvent
  apply good_bind good_byte
  intro pad
  apply good_bind (good_pbeNat 2)
  intro size
  apply good_bind (good_pbeNat 8)
  intro pid
  exact good_pure _

theorem good_pMailboxNext : GoodP pMailboxNext := by
  unfold pMailboxNext
  apply good_bind good_byte
  intro fl
  apply good_bind (good_pbeNat 8)
  intro txn
  exact good_pure _

theorem good_pMailboxNextResp : GoodP pMailboxNextResp := by
  unfold pMailboxNextResp
  apply good_bind good_byte
  intro fl
  apply good_bind (good_pbeNat 8)
  intro txn
  apply good_bind (good_pbeNat 2)
  intro size
  apply good_bind (good_popt _ (good_pbeNat 8))
  intro pid
  apply good_bind (good_popt _ good_byte)
  intro nl
  apply good_bind (good_popt _ (good_bytes _))
  intro nm
  apply good_bind (good_popt _ (good_pbeNat 4))
  intro plen
  apply good_bind (good_popt _ (good_bytes _))
  intro pl
  exact good_pure _

theorem good_pAckMail : GoodP pAckMail := by
  unfold pAckMail
  apply good_bind good_byte
  intro pad
  apply good_bind (good_pbeNat 8)
  intro pid
  apply good_bind good_pMailAckType
  intro ack
  exact good_pure _

theorem good_pAckMailResp : GoodP pAckMailResp := by
  unfold pAckMailResp
  apply good_bind good_byte
  intro fl
  apply good_bind (good_pbeNat 2)
  intro size
  apply good_bind (good_pbeNat 8)
  intro pid
  apply good_bind good_pMailAckType
  intro ack
  exact good_pure _

theorem good_packetBody (tag : Nat) : GoodP (packetBody tag) := by
  rw [packetBody]
  by_cases h1 : tag = 1
  · rw [if_pos h1]; exact good_pCloseConnection
  rw [if_neg h1]
  by_cases h2 : tag = 2
  · rw [if_pos h2]; exact good_pConnect
  rw [if_neg h2]
  by_cases h3 : tag = 3
  · rw [if_pos h3]; exact good_pConnected
  rw [if_neg h3]
  by_cases h4 : tag = 4
  · rw [if_pos h4]; exact good_pUnauthorized
  rw [if_neg h4]
  by_cases h5 : tag = 5
  · rw [if_pos h5]; exact good_pConnectFailed
  rw [if_neg h5]
  by_cases h8 : tag = 8
  · rw [if_pos h8]; exact good_pHeartbeat
  rw [if_neg h8]
  by_cases h9 : tag = 9
  · rw [if_pos h9]; exact good_pHeartbeatAck
  rw [if_neg h9]
  by_cases h10 : tag = 10
  · rw [if_pos h10]; exact good_pPulse
  rw [if_neg h10]
  by_cases h11 : tag = 11
  · rw [if_pos h11]; exact good_pPulseResp
  rw [if_neg h11]
  by_cases h20 : tag = 20
  · rw [if_pos h20]; exact good_pNewMailEvent
  rw [if_neg h20]
  by_cases h21 : tag = 21
  · rw [if_pos h21]; exact good_pMailboxNext
  rw [if_neg h21]
  by_cases h22 : tag = 22
  · rw [if_pos h22]; exact good_pMailboxNextResp
  rw [if_neg h22]
  by_cases h25 : tag = 25
  · rw [if_pos h25]; exact good_pAckMail
  rw [if_neg h25]
  by_cases h26 : tag = 26
  · rw [if_pos h26]; exact good_pAckMailResp
  rw [if_neg h26]
  exact good_fail

theorem good_parsePacket : GoodP parsePacket := by
  unfold parsePacket
  exact good_bind good_byte good_packetBody

theorem parsePacket_nil : parsePacket [] = .incomplete := rfl

theorem parse_consumes {bs : List Nat} {p : MoonlightPacket} {rest : List Nat}
    (h : parsePacket bs = .ok p rest) : rest.length < bs.length := by
  obtain ⟨c, rfl, hc⟩ := good_parsePacket.split _ _ _ h
  have hcne : c ≠ [] := by
    rintro rfl
    rw [parsePacket_nil] at hc
    exact absurd hc (by simp)
  have hpos : 0 < c.length := List.length_pos.2 hcne
  simp only [List.length_append]
  omega

theorem processFuel_congr : ∀ (f1 f2 : Nat) (bs : List Nat),
    bs.length < f1 → bs.length < f2 → processFuel f1 bs = processFuel f2 bs := by
  intro f1
  induction f1 with
  | zero =>
    intro f2 bs h1 h2
    exact absurd h1 (Nat.not_lt_zero _)
  | succ f1 ih =>
    intro f2 bs h1 h2
    cases f2 with
    | zero => exact absurd h2 (Nat.not_lt_zero _)
    | succ f2 =>
      rw [processFuel, processFuel]
      cases hp : parsePacket bs with
      | ok p rest =>
        have hr := parse_consumes hp
        dsimp only
        rw [ih f2 rest (by omega) (by omega)]
      | incomplete => rfl
      | error => rfl

theorem process_packets_ok {bs : List Nat} {p : MoonlightPacket}
    {rest : List Nat} (h : parsePacket bs = .ok p rest) :
    process_packets bs =
      (p :: (process_packets rest).1, (process_packets rest).2) := by
  have hr := parse_consumes h
  rw [process_packets, process_packets, processFuel, h]
  dsimp only
  rw [processFuel_congr bs.length (rest.length + 1) rest (by omega) (by omega)]

theorem process_packets_incomplete {bs : List Nat}
    (h : parsePacket bs = .incomplete) : process_packets bs = ([], bs, true) := by
  rw [process_packets, processFuel, h]

theorem process_packets_error {bs : List Nat}
    (h : parsePacket bs = .error) : process_packets bs = ([], bs, false) := by
  rw [process_packets, processFuel, h]

theorem process_packets_nil : process_packets [] = ([], [], true) :=
  process_packets_incomplete parsePacket_nil

theorem parse_cons (tag : Nat) (r : List Nat) :
    parsePacket (tag :: r) = packetBody tag r := by
  rw [parsePacket, pbind_eval packetBody (pbyte_cons _ _)]

theorem flagBit_mod2 (b : Bool) : decide (flagBit b % 2 = 1) = b := by
  cases b <;> rfl

theorem flags2_bit0 (m k : Bool) :
    decide ((2 * flagBit m + flagBit k) % 2 = 1) = k := by
  cases m <;> cases k <;> rfl

theorem flags2_bit1 (m k : Bool) :
    decide ((2 * flagBit m + flagBit k) / 2 % 2 = 1) = m := by
  cases m <;> cases k <;> rfl

theorem pSerializationFormat_eval (sf : SerializationFormat) (r : List Nat) :
    pSerializationFormat (sf.toByte :: r) = .ok sf r := by
  cases sf <;> rfl

theorem pPulseType_eval (pt : PulseType) (r : List Nat) :
    pPulseType (pt.toByte :: r) = .ok pt r := by
  cases pt <;> rfl

theorem pUnauthorizedError_eval (e : UnauthorizedError) (r : List Nat) :
    pUnauthorizedError (e.toByte :: r) = .ok e r := by
  cases e <;> rfl

theorem pConnectFailedError_eval (e : ConnectFailedError) (r : List Nat) :
    pConnectFailedError (e.toByte :: r) = .ok e r := by
  cases e <;> rfl

theorem pPulseErrorReason_eval (e : PulseErrorReason) (r : List Nat) :
    pPulseErrorReason (e.toByte :: r) = .ok e r := by
  cases e <;> rfl

theorem pMailAckType_eval (a : MailAckType) (r : List Nat) :
    pMailAckType (a.toByte :: r) = .ok a r := by
  cases a <;> rfl

theorem packetBody_1 : packetBody 1 = pCloseConnection := by norm_num [packetBody]

theorem packetBody_2 : packetBody 2 = pConnect := by norm_num [packetBody]

theorem packetBody_3 : packetBody 3 = pConnected := by norm_num [packetBody]

theorem packetBody_4 : packetBody 4 = pUnauthorized := by norm_num [packetBody]

theorem packetBody_5 : packetBody 5 = pConnectFailed := by norm_num [packetBody]

theorem packetBody_8 : packetBody 8 = pHeartbeat := by norm_num [packetBody]

theorem packetBody_9 : packetBody 9 = pHeartbeatAck := by norm_num [packetBody]

theorem packetBody_10 : packetBody 10 = pPulse := by norm_num [packetBody]

theorem packetBody_11 : packetBody 11 = pPulseResp := by norm_num [packetBody]

theorem packetBody_20 : packetBody 20 = pNewMailEvent := by norm_num [packetBody]

theorem packetBody_21 : packetBody 21 = pMailboxNext := by norm_num [packetBody]

theorem packetBody_22 : packetBody 22 = pMailboxNextResp := by norm_num [packetBody]

theorem packetBody_25 : packetBody 25 = pAckMail := by norm_num [packetBody]

theorem packetBody_26 : packetBody 26 = pAckMailResp := by norm_num [packetBody]

theorem parse_encode_close (server : Bool) (t : List Nat) :
    parsePacket ((MoonlightPacket.CloseConnection server).encode ++ t) =
      .ok (.CloseConnection server) t := by
  show parsePacket (1 :: flagBit server :: t) =
    .ok (.CloseConnection server) t
  rw [parse_cons, packetBody_1, pCloseConnection,
    pbind_eval _ (pbyte_cons _ _), ppure_eval, flagBit_mod2]

theorem parse_encode_heartbeat (v : Nat) (t : List Nat) :
    parsePacket ((MoonlightPacket.Heartbeat v).encode ++ t) =
      .ok (.Heartbeat v) t := by
  show parsePacket (8 :: v :: t) = .ok (.Heartbeat v) t
  rw [parse_cons, packetBody_8, pHeartbeat, pbind_eval _ (pbyte_cons _ _), ppure_eval]

theorem parse_encode_connect (ka : Bool) (pv : Nat)
    (sf : SerializationFormat) (fid did ds : List Nat) (t : List Nat)
    (hf : fid.length = 8) (hd : did.length = 10) (hs : ds.length = 36) :
    parsePacket ((MoonlightPacket.Connect ka pv sf fid did ds).encode ++ t) =
      .ok (.Connect ka pv sf fid did ds) t := by
  show parsePacket (2 :: flagBit ka :: pv :: sf.toByte :: ((fid ++ (did ++ ds)) ++ t)) =
    .ok (.Connect ka pv sf fid did ds) t
  rw [parse_cons, packetBody_2, pConnect, pbind_eval _ (pbyte_cons _ _),
    pbind_eval _ (pbyte_cons _ _), pbind_eval _ (pSerializationFormat_eval _ _)]
  rw [List.append_assoc, List.append_assoc]
  rw [pbind_eval _ (pbytes_exact _ hf), pbind_eval _ (pbytes_exact _ hd),
    pbind_eval _ (pbytes_exact _ hs), ppure_eval, flagBit_mod2]

theorem parse_encode_connected (m ka : Bool) (t : List Nat) :
    parsePacket ((MoonlightPacket.Connected m ka).encode ++ t) =
      .ok (.Connected m ka) t := by
  show parsePacket (3 :: (2 * flagBit m + flagBit ka) :: t) = .ok (.Connected m ka) t
  rw [parse_cons, packetBody_3, pConnected, pbind_eval _ (pbyte_cons _ _),
    ppure_eval, flags2_bit0, flags2_bit1]

theorem parse_encode_unauthorized (r : UnauthorizedError) (t : List Nat) :
    parsePacket ((MoonlightPacket.Unauthorized r).encode ++ t) =
      .ok (.Unauthorized r) t := by
  show parsePacket (4 :: 0 :: r.toByte :: t) = .ok (.Unauthorized r) t
  rw [parse_cons, packetBody_4, pUnauthorized, pbind_eval _ (pbyte_cons _ _),
    pbind_eval _ (pUnauthorizedError_eval _ _), ppure_eval]

theorem parse_encode_connect_failed (r : ConnectFailedError) (t : List Nat) :
    parsePacket ((MoonlightPacket.ConnectFailed r).encode ++ t) =
      .ok (.ConnectFailed r) t := by
  show parsePacket (5 :: 0 :: r.toByte :: t) = .ok (.ConnectFailed r) t
  rw [parse_cons, packetBody_5, pConnectFailed, pbind_eval _ (pbyte_cons _ _),
    pbind_eval _ (pConnectFailedError_eval _ _), ppure_eval]

theorem parse_encode_heartbeat_ack (s : Bool) (t : List Nat) :
    parsePacket ((MoonlightPacket.HeartbeatAck s).encode ++ t) =
      .ok (.HeartbeatAck s) t := by
  show parsePacket (9 :: flagBit s :: t) = .ok (.HeartbeatAck s) t
  rw [parse_cons, packetBody_9, pHeartbeatAck, pbind_eval _ (pbyte_cons _ _),
    ppure_eval, flagBit_mod2]

theorem parse_encode_pulse (pt : PulseType) (pid nl : Nat) (nm : List Nat)
    (plen : Nat) (pl : List Nat) (t : List Nat)
    (hpid : pid < 2 ^ 64) (hnl : nl = nm.length)
    (hplen : plen = pl.length) (hpl32 : pl.length < 2 ^ 32) :
    parsePacket ((MoonlightPacket.Pulse pt pid nl nm plen pl).encode ++ t) =
      .ok (.Pulse pt pid nl nm plen pl) t := by
  have h8 : pid < 256 ^ 8 := lt_of_lt_of_le hpid (by norm_num)
  have h4 : plen < 256 ^ 4 := by
    rw [hplen]
    exact lt_of_lt_of_le hpl32 (by norm_num)
  show parsePacket (10 :: 0 :: pt.toByte ::
      ((beBytes 8 pid ++ nl :: (nm ++ (beBytes 4 plen ++ pl))) ++ t)) =
    .ok (.Pulse pt pid nl nm plen pl) t
  simp only [List.append_assoc, List.cons_append]
  rw [parse_cons, packetBody_10, pPulse, pbind_eval _ (pbyte_cons _ _),
    pbind_eval _ (pPulseType_eval _ _), pbind_eval _ (pbeNat_eval _ h8),
    pbind_eval _ (pbyte_cons _ _), pbind_eval _ (pbytes_exact _ hnl.symm),
    pbind_eval _ (pbeNat_eval _ h4), pbind_eval _ (pbytes_exact _ hplen.symm),
    ppure_eval]

theorem parse_encode_pulse_resp (s : Bool) (pid : Nat)
    (er : Option PulseErrorReason) (t : List Nat) (hpid : pid < 2 ^ 64)
    (htrue : s = true → er = none) (hfalse : s = false → ∃ r, er = some r) :
    parsePacket ((MoonlightPacket.PulseResp s pid er).encode ++ t) =
      .ok (.PulseResp s pid er) t := by
  have h8 : pid < 256 ^ 8 := lt_of_lt_of_le hpid (by norm_num)
  cases s
  · obtain ⟨r, rfl⟩ := hfalse rfl
    show parsePacket (11 :: flagBit false :: ((beBytes 8 pid ++ [r.toByte]) ++ t)) =
      .ok (.PulseResp false pid (some r)) t
    simp only [List.append_assoc, List.singleton_append]
    rw [parse_cons, packetBody_11, pPulseResp, pbind_eval _ (pbyte_cons _ _),
      flagBit_mod2, Bool.not_false, pbind_eval _ (pbeNat_eval _ h8),
      pbind_eval _ (popt_true_eval (pPulseErrorReason_eval _ _)), ppure_eval]
  · have her := htrue rfl
    subst her
    show parsePacket (11 :: flagBit true :: ((beBytes 8 pid ++ []) ++ t)) =
      .ok (.PulseResp true pid none) t
    simp only [List.append_nil]
    rw [parse_cons, packetBody_11, pPulseResp, pbind_eval _ (pbyte_cons _ _),
      flagBit_mod2, Bool.not_true, pbind_eval _ (pbeNat_eval _ h8),
      pbind_eval _ (popt_false_eval _ _), ppure_eval]

theorem parse_encode_new_mail_event (size pid : Nat) (t : List Nat)
    (hsize : size < 2 ^ 16) (hpid : pid < 2 ^ 64) :
    parsePacket ((MoonlightPacket.NewMailEvent size pid).encode ++ t) =
      .ok (.NewMailEvent size pid) t := by
  have h2 : size < 256 ^ 2 := lt_of_lt_of_le hsize (by norm_num)
  have h8 : pid < 256 ^ 8 := lt_of_lt_of_le hpid (by norm_num)
  show parsePacket (20 :: 0 :: ((beBytes 2 size ++ beBytes 8 pid) ++ t)) =
    .ok (.NewMailEvent size pid) t
  simp only [List.append_assoc]
  rw [parse_cons, packetBody_20, pNewMailEvent, pbind_eval _ (pbyte_cons _ _),
    pbind_eval _ (pbeNat_eval _ h2), pbind_eval _ (pbeNat_eval _ h8), ppure_eval]

theorem parse_encode_mailbox_next (ho : Bool) (txn : Nat) (t : List Nat)
    (htxn : txn < 2 ^ 64) :
    parsePacket ((MoonlightPacket.MailboxNext ho txn).encode ++ t) =
      .ok (.MailboxNext ho txn) t := by
  have h8 : txn < 256 ^ 8 := lt_of_lt_of_le htxn (by norm_num)
  show parsePacket (21 :: flagBit ho :: (beBytes 8 txn ++ t)) =
    .ok (.MailboxNext ho txn) t
  rw [parse_cons, packetBody_21, pMailboxNext, pbind_eval _ (pbyte_cons _ _),
    pbind_eval _ (pbeNat_eval _ h8), ppure_eval, flagBit_mod2]

theorem parse_encode_ack_mail (pid : Nat) (ack : MailAckType) (t : List Nat)
    (hpid : pid < 2 ^ 64) :
    parsePacket ((MoonlightPacket.AckMail pid ack).encode ++ t) =
      .ok (.AckMail pid ack) t := by
  have h8 : pid < 256 ^ 8 := lt_of_lt_of_le hpid (by norm_num)
  show parsePacket (25 :: 0 :: ((beBytes 8 pid ++ [ack.toByte]) ++ t)) =
    .ok (.AckMail pid ack) t
  simp only [List.append_assoc, List.singleton_append]
  rw [parse_cons, packetBody_25, pAckMail, pbind_eval _ (pbyte_cons _ _),
    pbind_eval _ (pbeNat_eval _ h8), pbind_eval _ (pMailAckType_eval _ _),
    ppure_eval]

theorem parse_encode_ack_mail_resp (s : Bool) (size pid : Nat)
    (ack : MailAckType) (t : List Nat)
    (hsize : size < 2 ^ 16) (hpid : pid < 2 ^ 64) :
    parsePacket ((MoonlightPacket.AckMailResp s size pid ack).encode ++ t) =
      .ok (.AckMailResp s size pid ack) t := by
  have h2 : size < 256 ^ 2 := lt_of_lt_of_le hsize (by norm_num)
  have h8 : pid < 256 ^ 8 := lt_of_lt_of_le hpid (by norm_num)
  show parsePacket
      (26 :: flagBit s :: ((beBytes 2 size ++ (beBytes 8 pid ++ [ack.toByte])) ++ t)) =
    .ok (.AckMailResp s size pid ack) t
  simp only [List.append_assoc, List.singleton_append]
  rw [parse_cons, packetBody_26, pAckMailResp, pbind_eval _ (pbyte_cons _ _),
    pbind_eval _ (pbeNat_eval _ h2), pbind_eval _ (pbeNat_eval _ h8),
    pbind_eval _ (pMailAckType_eval _ _), ppure_eval, flagBit_mod2]

theorem parse_encode_mailbox_next_resp (ho s : Bool) (txn size : Nat)
    (pid nl : Option Nat) (nm : Option (List Nat)) (plen : Option Nat)
    (pl : Option (List Nat)) (t : List Nat)
    (h : Wellformed (.MailboxNextResp ho s txn size pid nl nm plen pl)) :
    parsePacket
        ((MoonlightPacket.MailboxNextResp ho s txn size pid nl nm plen pl).encode ++ t) =
      .ok (.MailboxNextResp ho s txn size pid nl nm plen pl) t := by
  obtain ⟨htxn, hsize, hc1, hnc1, hc2, hnc2⟩ := h
  have h8 : txn < 256 ^ 8 := lt_of_lt_of_le htxn (by norm_num)
  have h2 : size < 256 ^ 2 := lt_of_lt_of_le hsize (by norm_num)
  cases s
  · obtain ⟨hp, hn, hm⟩ := hnc1 (by simp)
    obtain ⟨hq1, hq2⟩ := hnc2 (by simp)
    subst hp
    subst hn
    subst hm
    subst hq1
    subst hq2
    show parsePacket (22 :: (2 * flagBit ho + flagBit false) ::
        ((beBytes 8 txn ++ (beBytes 2 size ++ ([] ++ ([] ++ ([] ++ ([] ++ [])))))) ++ t)) =
      .ok (.MailboxNextResp ho false txn size none none none none none) t
    simp only [List.nil_append, List.append_nil, List.append_assoc]
    rw [parse_cons, packetBody_22, pMailboxNextResp, pbind_eval _ (pbyte_cons _ _),
      flags2_bit0, flags2_bit1, pbind_eval _ (pbeNat_eval _ h8),
      pbind_eval _ (pbeNat_eval _ h2)]
    simp only [Bool.false_and, Bool.and_false]
    rw [pbind_eval _ (popt_false_eval _ _), pbind_eval _ (popt_false_eval _ _),
      pbind_eval _ (popt_false_eval _ _), pbind_eval _ (popt_false_eval _ _),
      pbind_eval _ (popt_false_eval _ _), ppure_eval]
  · rcases Nat.eq_zero_or_pos size with hz | hpos
    · subst hz
      obtain ⟨hp, hn, hm⟩ := hnc1 (by simp)
      obtain ⟨hq1, hq2⟩ := hnc2 (by simp)
      subst hp
      subst hn
      subst hm
      subst hq1
      subst hq2
      show parsePacket (22 :: (2 * flagBit ho + flagBit true) ::
          ((beBytes 8 txn ++ (beBytes 2 0 ++ ([] ++ ([] ++ ([] ++ ([] ++ [])))))) ++ t)) =
        .ok (.MailboxNextResp ho true txn 0 none none none none none) t
      simp only [List.nil_append, List.append_nil, List.append_assoc]
      rw [parse_cons, packetBody_22, pMailboxNextResp, pbind_eval _ (pbyte_cons _ _),
        flags2_bit0, flags2_bit1, pbind_eval _ (pbeNat_eval _ h8),
        pbind_eval _ (pbeNat_eval _ h2)]
      simp only [show (decide ((0 : Nat) < 0)) = false from rfl, Bool.and_false]
      rw [pbind_eval _ (popt_false_eval _ _), pbind_eval _ (popt_false_eval _ _),
        pbind_eval _ (popt_false_eval _ _), pbind_eval _ (popt_false_eval _ _),
        pbind_eval _ (popt_false_eval _ _), ppure_eval]
    · obtain ⟨v, l, hpv, hv64, hnml, hnll, hllen, hlb⟩ := hc1 ⟨rfl, hpos⟩
      subst hpv
      subst hnml
      subst hnll
      have hv8 : v < 256 ^ 8 := lt_of_lt_of_le hv64 (by norm_num)
      have hdp : decide (0 < size) = true := decide_eq_true hpos
      cases ho
      · obtain ⟨q, hq1, hq2, hqlen, hqb⟩ := hc2 ⟨rfl, rfl, hpos⟩
        subst hq1
        subst hq2
        have hq4 : q.length < 256 ^ 4 := lt_of_lt_of_le hqlen (by norm_num)
        show parsePacket (22 :: (2 * flagBit false + flagBit true) ::
            ((beBytes 8 txn ++ (beBytes 2 size ++ (beBytes 8 v ++ ([l.length] ++
              (l ++ (beBytes 4 q.length ++ q)))))) ++ t)) =
          .ok (.MailboxNextResp false true txn size (some v) (some l.length)
            (some l) (some q.length) (some q)) t
        simp only [List.append_assoc, List.singleton_append, List.cons_append,
          List.nil_append]
        rw [parse_cons, packetBody_22, pMailboxNextResp, pbind_eval _ (pbyte_cons _ _),
          flags2_bit0, flags2_bit1, pbind_eval _ (pbeNat_eval _ h8),
          pbind_eval _ (pbeNat_eval _ h2), hdp]
        simp only [Bool.true_and, Bool.and_true, Bool.not_false]
        rw [pbind_eval _ (popt_true_eval (pbeNat_eval _ hv8)),
          pbind_eval _ (popt_true_eval (pbyte_cons _ _))]
        simp only [Option.getD_some]
        rw [pbind_eval _ (popt_true_eval (pbytes_exact _ rfl)),
          pbind_eval _ (popt_true_eval (pbeNat_eval _ hq4))]
        simp only [Option.getD_some]
        rw [pbind_eval _ (popt_true_eval (pbytes_exact _ rfl)), ppure_eval]
      · obtain ⟨hq1, hq2⟩ := hnc2 (by simp)
        subst hq1
        subst hq2
        show parsePacket (22 :: (2 * flagBit true + flagBit true) ::
            ((beBytes 8 txn ++ (beBytes 2 size ++ (beBytes 8 v ++ ([l.length] ++
              (l ++ ([] ++ [])))))) ++ t)) =
          .ok (.MailboxNextResp true true txn size (some v) (some l.length)
            (some l) none none) t
        simp only [List.append_assoc, List.singleton_append, List.cons_append,
          List.nil_append, List.append_nil]
        rw [parse_cons, packetBody_22, pMailboxNextResp, pbind_eval _ (pbyte_cons _ _),
          flags2_bit0, flags2_bit1, pbind_eval _ (pbeNat_eval _ h8),
          pbind_eval _ (pbeNat_eval _ h2), hdp]
        simp only [Bool.true_and, Bool.and_true, Bool.not_true, Bool.false_and]
        rw [pbind_eval _ (popt_true_eval (pbeNat_eval _ hv8)),
          pbind_eval _ (popt_true_eval (pbyte_cons _ _))]
        simp only [Option.getD_some]
        rw [pbind_eval _ (popt_true_eval (pbytes_exact _ rfl)),
          pbind_eval _ (popt_false_eval _ _), pbind_eval _ (popt_false_eval _ _),
          ppure_eval]

/-- Round-trip with a trailing tail: parsing the encoding of any wellformed
packet followed by arbitrary further bytes yields exactly that packet and
leaves the tail unconsumed. -/
theorem parse_encode (p : MoonlightPacket) (h : Wellformed p) (t : List Nat) :
    parsePacket (p.encode ++ t) = .ok p t := by
  cases p with
  | CloseConnection server => exact parse_encode_close server t
  | Connect ka pv sf fid did ds =>
    obtain ⟨hpv, hf, hd, hs, _, _, _⟩ := h
    exact parse_encode_connect ka pv sf fid did ds t hf hd hs
  | Connected m ka => exact parse_encode_connected m ka t
  | Unauthorized r => exact parse_encode_unauthorized r t
  | ConnectFailed r => exact parse_encode_connect_failed r t
  | Heartbeat v => exact parse_encode_heartbeat v t
  | HeartbeatAck s => exact parse_encode_heartbeat_ack s t
  | Pulse pt pid nl nm plen pl =>
    obtain ⟨hpid, hnl, _, hplen, hpl32, _, _⟩ := h
    exact parse_encode_pulse pt pid nl nm plen pl t hpid hnl hplen hpl32
  | PulseResp s pid er =>
    obtain ⟨hpid, htrue, hfalse⟩ := h
    exact parse_encode_pulse_resp s pid er t hpid htrue hfalse
  | NewMailEvent size pid =>
    obtain ⟨hsize, hpid⟩ := h
    exact parse_encode_new_mail_event size pid t hsize hpid
  | MailboxNext ho txn => exact parse_encode_mailbox_next ho txn t h
  | MailboxNextResp ho s txn size pid nl nm plen pl =>
    exact parse_encode_mailbox_next_resp ho s txn size pid nl nm plen pl t h
  | AckMail pid ack => exact parse_encode_ack_mail pid ack t h
  | AckMailResp s size pid ack =>
    obtain ⟨hsize, hpid⟩ := h
    exact parse_encode_ack_mail_resp s size pid ack t hsize hpid

theorem parse_encode_self (p : MoonlightPacket) (h : Wellformed p) :
    parsePacket p.encode = .ok p [] := by
  have := parse_encode p h []
  simpa using this

theorem encode_ne_nil (p : MoonlightPacket) : p.encode ≠ [] := by
  cases p <;> simp [MoonlightPacket.encode]

theorem parse_prefix_incomplete (p : MoonlightPacket) (h : Wellformed p)
    {t : List Nat} (hpre : t <+: p.encode) (hne : t ≠ p.encode) :
    parsePacket t = .incomplete :=
  good_parsePacket.inc _ _ (parse_encode_self p h) t hpre hne

theorem drain_prefix : ∀ (rem : List MoonlightPacket),
    (∀ p ∈ rem, Wellformed p) → ∀ b : List Nat,
    b <+: (rem.map MoonlightPacket.encode).flatten →
    ∃ done rem2 r, rem = done ++ rem2 ∧
      b = (done.map MoonlightPacket.encode).flatten ++ r ∧
      process_packets b = (done, r, true) ∧ parsePacket r = .incomplete := by
  intro rem
  induction rem with
  | nil =>
    intro hwf b hb
    simp only [List.map_nil, List.flatten_nil] at hb
    rw [List.prefix_nil] at hb
    subst hb
    exact ⟨[], [], [], rfl, rfl, process_packets_nil, parsePacket_nil⟩
  | cons q rem' ih =>
    intro hwf b hb
    have hq : Wellformed q := hwf q (List.mem_cons_self _ _)
    simp only [List.map_cons, List.flatten_cons] at hb
    by_cases hlen : q.encode.length ≤ b.length
    · have hbtake := List.prefix_iff_eq_take.1 hb
      have hqb : b.take q.encode.length = q.encode := by
        conv_lhs => rw [hbtake]
        rw [List.take_take, min_eq_left hlen,
          List.take_append_of_le_length (le_refl _), List.take_length]
      have hbsplit : b = q.encode ++ b.drop q.encode.length := by
        conv_lhs => rw [← List.take_append_drop q.encode.length b, hqb]
      obtain ⟨s, hs⟩ := hb
      have hdroppre : b.drop q.encode.length <+:
          (rem'.map MoonlightPacket.encode).flatten := by
        refine ⟨s, ?_⟩
        have hx : (q.encode ++ b.drop q.encode.length) ++ s =
            q.encode ++ (rem'.map MoonlightPacket.encode).flatten := by
          rw [← hbsplit, hs]

        rw [List.append_assoc] at hx
        exact List.append_cancel_left hx
      obtain ⟨done', rem2, r, hsplit, hb2, hpp, hrinc⟩ :=
        ih (fun p hp => hwf p (List.mem_cons_of_mem _ hp)) _ hdroppre
      refine ⟨q :: done', rem2, r, by simp [hsplit], ?_, ?_, hrinc⟩
      · rw [List.map_cons, List.flatten_cons, List.append_assoc, ← hb2]
        exact hbsplit
      · have hparse : parsePacket b = .ok q (b.drop q.encode.length) := by
          conv_lhs => rw [hbsplit]
          exact parse_encode q hq _
        rw [process_packets_ok hparse, hpp]
    · have hbpre : b <+: q.encode := by
        have hble : b.length ≤ q.encode.length := by omega
        have hbtake := List.prefix_iff_eq_take.1 hb
        rw [List.take_append_of_le_length hble] at hbtake
        rw [hbtake]
        exact List.take_prefix _ _
      have hbne : b ≠ q.encode := by
        intro hbe
        rw [hbe] at hlen
        exact hlen (le_refl _)
      have hinc := parse_prefix_incomplete q hq hbpre hbne
      exact ⟨[], q :: rem', b, rfl, rfl, process_packets_incomplete hinc, hinc⟩

theorem runChunksAux : ∀ (chunks : List (List Nat))
    (acc : List MoonlightPacket) (buf : List Nat) (rem : List MoonlightPacket),
    (∀ p ∈ rem, Wellformed p) → parsePacket buf = .incomplete →
    buf ++ chunks.flatten = (rem.map MoonlightPacket.encode).flatten →
    chunks.foldl feedDrainStep (some (acc, buf)) = some (acc ++ rem, []) := by
  intro chunks
  induction chunks with
  | nil =>
    intro acc buf rem hwf hinc hjoin
    simp only [List.flatten_nil, List.append_nil] at hjoin
    cases rem with
    | nil =>
      simp only [List.map_nil, List.flatten_nil] at hjoin
      subst hjoin
      simp
    | cons q rem' =>
      exfalso
      simp only [List.map_cons, List.flatten_cons] at hjoin
      rw [hjoin, parse_encode q (hwf q (List.mem_cons_self _ _)) _] at hinc
      exact absurd hinc (by simp)
  | cons c chunks' ih =>
    intro acc buf rem hwf hinc hjoin
    have hjoin1 : (buf ++ c) ++ chunks'.flatten =
        (rem.map MoonlightPacket.encode).flatten := by
      rw [List.append_assoc, ← hjoin, List.flatten_cons]
    have hb : (buf ++ c) <+: (rem.map MoonlightPacket.encode).flatten :=
      ⟨chunks'.flatten, hjoin1⟩
    obtain ⟨done, rem2, r, hsplit, hb2, hpp, hrinc⟩ :=
      drain_prefix rem hwf (buf ++ c) hb
    have hstep : feedDrainStep (some (acc, buf)) c = some (acc ++ done, r) := by
      have hfd : feedDrainStep (some (acc, buf)) c =
          (let r0 := process_packets (buf ++ c)
           if r0.2.2 then some (acc ++ r0.1, r0.2.1) else none) := rfl
      rw [hfd, hpp]
      simp
    rw [List.foldl_cons, hstep]
    have hjoin2 : r ++ chunks'.flatten = (rem2.map MoonlightPacket.encode).flatten := by
      rw [hsplit, List.map_append, List.flatten_append] at hjoin1
      rw [hb2, List.append_assoc] at hjoin1
      exact List.append_cancel_left hjoin1
    have hres := ih (acc ++ done) r rem2
      (fun p hp => hwf p (by rw [hsplit]; exact List.mem_append_right _ hp))
      hrinc hjoin2
    rw [hres, hsplit, List.append_assoc]

/-- Claim C1: for every Moonlight frame in the catalog, for every choice of
its flag bits and field values within the protocol bounds, decoding the
encoding yields exactly the frame back and reports a consumed length equal
to the length of the encoding. -/
theorem C1_codec_roundtrip (p : MoonlightPacket) (h : Wellformed p) :
    Codec.decode p.encode = .ok p p.encode.length := by
  rw [Codec.decode, parse_encode_self p h]
  simp

theorem C1_codec_roundtrip_witness :
    Wellformed (MoonlightPacket.Pulse .Data 5 2 [65, 66] 3 [1, 2, 3]) ∧
    Codec.decode (MoonlightPacket.Pulse .Data 5 2 [65, 66] 3 [1, 2, 3]).encode =
      .ok (.Pulse .Data 5 2 [65, 66] 3 [1, 2, 3])
        (MoonlightPacket.Pulse .Data 5 2 [65, 66] 3 [1, 2, 3]).encode.length :=
  ⟨by simp [Wellformed], C1_codec_roundtrip _ (by simp [Wellformed])⟩

/-- Claim C2: for every finite sequence of wellformed frames and every way of
splitting the concatenation of their encodings into chunks fed through
`feed` in order, draining after each feed yields exactly the frames in
order, with no extra frames, no decode error, and an empty residual
buffer.  In particular a chunk holding only a strict prefix of one
encoding yields no frames and decoding resumes correctly on the tail. -/
theorem C2_streaming (ps : List MoonlightPacket) (chunks : List (List Nat))
    (hwf : ∀ p ∈ ps, Wellformed p)
    (hsplit : chunks.flatten = (ps.map MoonlightPacket.encode).flatten) :
    runChunks chunks = some (ps, []) := by
  rw [runChunks]
  have h := runChunksAux chunks [] [] ps hwf parsePacket_nil (by simpa using hsplit)
  simpa using h

theorem C2_streaming_witness :
    (∀ p ∈ [MoonlightPacket.Heartbeat 0, MoonlightPacket.CloseConnection true],
      Wellformed p) ∧
    ([[8], [0, 1], [1]] : List (List Nat)).flatten =
      ([MoonlightPacket.Heartbeat 0,
        MoonlightPacket.CloseConnection true].map MoonlightPacket.encode).flatten ∧
    runChunks [[8], [0, 1], [1]] =
      some ([MoonlightPacket.Heartbeat 0, MoonlightPacket.CloseConnection true], []) :=
  ⟨by simp [Wellformed], by decide, C2_streaming _ _ (by simp [Wellformed]) (by decide)⟩

/-- Claim C3 (the code lacks the cap the spec requires): feeding a buffer
whose Pulse frame header declares payload_len = 4294967295 (≈ 4 GiB, far
above any few-MB cap) does NOT make draining fail with a decode error;
the drain succeeds with no frames and retains the whole buffer, waiting
indefinitely for more bytes as an incomplete frame. -/
theorem C3_no_payload_cap :
    parsePacket oversizedPulseHeader = .incomplete ∧
    process_packets oversizedPulseHeader = ([], oversizedPulseHeader, true) := by
  have h : parsePacket oversizedPulseHeader = .incomplete := by decide
  exact ⟨h, process_packets_incomplete h⟩

theorem validate_fleet_id_ok_iff {f : List Char} :
    validate_fleet_id f = .ok () ↔ SpecFleetIdOk f := by
  rw [validate_fleet_id]
  split_ifs with h1 h2
  · constructor
    · intro hx
      exact absurd hx (by simp)
    · rintro ⟨hlen, -⟩
      rw [List.isEmpty_iff] at h1
      subst h1
      simp [byteLen] at hlen
  · constructor
    · intro hx
      exact absurd hx (by simp)
    · rintro ⟨hlen, hall⟩
      rcases h2 with h2 | h2
      · exact h2 hlen
      · exact h2 (List.all_eq_true.2 hall)
  · push_neg at h2
    constructor
    · intro _h
      exact ⟨h2.1, List.all_eq_true.1 h2.2⟩
    · intro _h
      rfl

theorem validate_device_id_ok_iff {d : List Char} :
    validate_device_id d = .ok () ↔ SpecDeviceIdOk d := by
  rw [validate_device_id]
  split_ifs with h1 h2
  · constructor
    · intro hx
      exact absurd hx (by simp)
    · rintro ⟨hlen, -⟩
      rw [List.isEmpty_iff] at h1
      subst h1
      simp [byteLen] at hlen
  · constructor
    · intro hx
      exact absurd hx (by simp)
    · rintro ⟨hlen, hall⟩
      rcases h2 with h2 | h2
      · exact h2 hlen
      · exact h2 (List.all_eq_true.2 hall)
  · push_neg at h2
    constructor
    · intro _h
      exact ⟨h2.1, List.all_eq_true.1 h2.2⟩
    · intro _h
      rfl

theorem validate_device_secret_ok_iff {s : List Char} :
    validate_device_secret s = .ok () ↔ SpecDeviceSecretOk s := by
  rw [validate_device_secret]
  split_ifs with h1 h2
  · constructor
    · intro hx
      exact absurd hx (by simp)
    · rintro ⟨hlen, -⟩
      rw [List.isEmpty_iff] at h1
      subst h1
      simp [byteLen] at hlen
  · constructor
    · intro hx
      exact absurd hx (by simp)
    · rintro ⟨hlen, hpre, hall⟩
      rcases h2 with h2 | h2 | h2
      · exact h2 hlen
      · exact h2 hpre
      · exact h2 (List.all_eq_true.2 hall)
  · push_neg at h2
    obtain ⟨hl, hp, ha⟩ := h2
    constructor
    · intro _h
      exact ⟨hl, hp, List.all_eq_true.1 ha⟩
    · intro _h
      rfl

theorem validate_fleet_id_cases {f : List Char} :
    (f = [] → validate_fleet_id f = .error .FleetIDMissing) ∧
    (f ≠ [] → ¬SpecFleetIdOk f → validate_fleet_id f = .error .FleetIDInvalid) := by
  constructor
  · rintro rfl
    rfl
  · intro hne hnot
    rw [validate_fleet_id, if_neg (by simpa [List.isEmpty_iff] using hne)]
    by_cases hc : byteLen f ≠ 8 ∨ ¬(f.all rustIsAlphanumeric = true)
    · rw [if_pos hc]
    · exfalso
      push_neg at hc
      exact hnot ⟨hc.1, List.all_eq_true.1 hc.2⟩

theorem validate_device_id_cases {d : List Char} :
    (d = [] → validate_device_id d = .error .DeviceIDMissing) ∧
    (d ≠ [] → ¬SpecDeviceIdOk d → validate_device_id d = .error .DeviceIDInvalid) := by
  constructor
  · rintro rfl
    rfl
  · intro hne hnot
    rw [validate_device_id, if_neg (by simpa [List.isEmpty_iff] using hne)]
    by_cases hc : byteLen d ≠ 10 ∨ ¬(d.all rustIsAlphanumeric = true)
    · rw [if_pos hc]
    · exfalso
      push_neg at hc
      exact hnot ⟨hc.1, List.all_eq_true.1 hc.2⟩

theorem validate_device_secret_cases {s : List Char} :
    (s = [] → validate_device_secret s = .error .DeviceSecretMissing) ∧
    (s ≠ [] → ¬SpecDeviceSecretOk s →
      validate_device_secret s = .error .DeviceSecretInvalid) := by
  constructor
  · rintro rfl
    rfl
  · intro hne hnot
    rw [validate_device_secret, if_neg (by simpa [List.isEmpty_iff] using hne)]
    by_cases hc : byteLen s ≠ 36 ∨ ¬(s.take 4 = ['F', 'O', 'S', '-']) ∨
        ¬((s.drop 4).all rustIsAlphanumeric = true)
    · rw [if_pos hc]
    · exfalso
      push_neg at hc
      obtain ⟨hl, hp, ha⟩ := hc
      exact hnot ⟨hl, hp, List.all_eq_true.1 ha⟩

/-- Claim C4, amended: the validation compares UTF-8 byte length, not
character count. Over inputs in the Basic Latin and Latin-1 ranges (code
points below U+0100, where the Unicode alphanumeric predicate is modelled
exactly), `Creds::new` succeeds iff the fleet id is exactly 8 UTF-8 bytes
of alphanumeric characters, the device id exactly 10, and the device
secret exactly 36 UTF-8 bytes starting with FOS- with every later
character alphanumeric; an empty field yields that field's Missing error,
a non-empty non-conforming field that field's Invalid error, checked in
order fleet id, device id, device secret. -/
theorem C4_creds_validation (f d s : List Char) (prod : Bool) :
    (∀ c ∈ f, c.toNat < 256) → (∀ c ∈ d, c.toNat < 256) →
    (∀ c ∈ s, c.toNat < 256) →
    ((∃ cr, Creds.new f d s prod = .ok cr) ↔
      (SpecFleetIdOk f ∧ SpecDeviceIdOk d ∧ SpecDeviceSecretOk s)) ∧
    (f = [] → Creds.new f d s prod = .error .FleetIDMissing) ∧
    (f ≠ [] → ¬SpecFleetIdOk f → Creds.new f d s prod = .error .FleetIDInvalid) ∧
    (SpecFleetIdOk f → d = [] → Creds.new f d s prod = .error .DeviceIDMissing) ∧
    (SpecFleetIdOk f → d ≠ [] → ¬SpecDeviceIdOk d →
      Creds.new f d s prod = .error .DeviceIDInvalid) ∧
    (SpecFleetIdOk f → SpecDeviceIdOk d → s = [] →
      Creds.new f d s prod = .error .DeviceSecretMissing) ∧
    (SpecFleetIdOk f → SpecDeviceIdOk d → s ≠ [] → ¬SpecDeviceSecretOk s →
      Creds.new f d s prod = .error .DeviceSecretInvalid) := by
  intro _ _ _
  refine ⟨?_, ?_, ?_, ?_, ?_, ?_, ?_⟩
  · constructor
    · rintro ⟨cr, hcr⟩
      rcases hvf2 : validate_fleet_id f with e | u
      · rw [Creds.new, hvf2] at hcr
        simp at hcr
      · cases u
        rcases hvd2 : validate_device_id d with e | u
        · rw [Creds.new, hvf2, hvd2] at hcr
          simp at hcr
        · cases u
          rcases hvs2 : validate_device_secret s with e | u
          · rw [Creds.new, hvf2, hvd2, hvs2] at hcr
            simp at hcr
          · cases u
            exact ⟨validate_fleet_id_ok_iff.1 hvf2,
              validate_device_id_ok_iff.1 hvd2,
              validate_device_secret_ok_iff.1 hvs2⟩
    · rintro ⟨hvf, hvd, hvs⟩
      refine ⟨⟨f, d, s, prod⟩, ?_⟩
      rw [Creds.new, validate_fleet_id_ok_iff.2 hvf,
        validate_device_id_ok_iff.2 hvd,
        validate_device_secret_ok_iff.2 hvs]
  · rintro rfl
    rfl
  · intro hne hnot
    rw [Creds.new, validate_fleet_id_cases.2 hne hnot]
  · intro hvf hd0
    rw [Creds.new, validate_fleet_id_ok_iff.2 hvf,
      validate_device_id_cases.1 hd0]
  · intro hvf hne hnot
    rw [Creds.new, validate_fleet_id_ok_iff.2 hvf,
      validate_device_id_cases.2 hne hnot]
  · intro hvf hvd hs0
    rw [Creds.new, validate_fleet_id_ok_iff.2 hvf,
      validate_device_id_ok_iff.2 hvd,
      validate_device_secret_cases.1 hs0]
  · intro hvf hvd hne hnot
    rw [Creds.new, validate_fleet_id_ok_iff.2 hvf,
      validate_device_id_ok_iff.2 hvd,
      validate_device_secret_cases.2 hne hnot]

theorem C4_creds_validation_witness :
    (∀ c ∈ ['A', 'B', 'C', 'D', '1', '2', '3', '4'], Char.toNat c < 256) ∧
    (∃ cr, Creds.new ['A', 'B', 'C', 'D', '1', '2', '3', '4']
      ['D', 'E', 'V', 'I', 'C', 'E', '0', '0', '0', '1']
      ('F' :: 'O' :: 'S' :: '-' :: List.replicate 32 'a') true = .ok cr) :=
  ⟨by decide,
    ((C4_creds_validation ['A', 'B', 'C', 'D', '1', '2', '3', '4']
      ['D', 'E', 'V', 'I', 'C', 'E', '0', '0', '0', '1']
      ('F' :: 'O' :: 'S' :: '-' :: List.replicate 32 'a') true
      (by decide) (by decide) (by decide)).1).2
      ⟨⟨by decide, by decide⟩, ⟨by decide, by decide⟩,
        ⟨by decide, by decide, by decide⟩⟩⟩

/-- Claim C4, counterexample to the original character-count reading: the
fleet id éZZZZZZ has 7 characters, all of them alphanumeric (é is U+00E9,
a Unicode lowercase letter), so the claim requires `Creds::new` to fail
with FleetIDInvalid; the code instead succeeds, because Rust `str::len`
counts UTF-8 bytes and é occupies two, making the byte length exactly 8. -/
theorem C4_unicode_counterexample :
    Creds.new ['é', 'Z', 'Z', 'Z', 'Z', 'Z', 'Z']
        ['D', 'E', 'V', 'I', 'C', 'E', '0', '0', '0', '1']
        ('F' :: 'O' :: 'S' :: '-' :: List.replicate 32 'a') true =
      .ok ⟨['é', 'Z', 'Z', 'Z', 'Z', 'Z', 'Z'],
        ['D', 'E', 'V', 'I', 'C', 'E', '0', '0', '0', '1'],
        'F' :: 'O' :: 'S' :: '-' :: List.replicate 32 'a', true⟩ ∧
    (['é', 'Z', 'Z', 'Z', 'Z', 'Z', 'Z'] : List Char).length = 7 ∧
    (['é', 'Z', 'Z', 'Z', 'Z', 'Z', 'Z'] : List Char).all rustIsAlphanumeric
      = true ∧
    byteLen ['é', 'Z', 'Z', 'Z', 'Z', 'Z', 'Z'] = 8 := by
  refine ⟨rfl, by decide, by decide, by decide⟩

theorem pendingLookup_cons_self (e : Nat × Nat × Nat) (p : List (Nat × Nat × Nat)) :
    pendingLookup (e :: p) e.1 = some e.2 := by
  rw [pendingLookup, List.find?_cons_of_pos _ (by simp)]
  rfl

theorem pendingLookup_cons_ne {k : Nat} (e : Nat × Nat × Nat)
    (p : List (Nat × Nat × Nat)) (h : e.1 ≠ k) :
    pendingLookup (e :: p) k = pendingLookup p k := by
  rw [pendingLookup, List.find?_cons_of_neg _ (by simp [h]), pendingLookup]

theorem pendingRemove_cons_self {k : Nat} (e : Nat × Nat × Nat)
    (p : List (Nat × Nat × Nat)) (h : e.1 = k) :
    pendingRemove (e :: p) k = pendingRemove p k := by
  rw [pendingRemove, List.filter_cons]
  rw [if_neg (by simp [h]), pendingRemove]

theorem pendingRemove_cons_ne {k : Nat} (e : Nat × Nat × Nat)
    (p : List (Nat × Nat × Nat)) (h : e.1 ≠ k) :
    pendingRemove (e :: p) k = e :: pendingRemove p k := by
  rw [pendingRemove, List.filter_cons, if_pos (by simp [h]), pendingRemove]

theorem pendingRemove_not_mem {k : Nat} {p : List (Nat × Nat × Nat)}
    (h : ∀ x ∈ p, x.1 ≠ k) : pendingRemove p k = p := by
  rw [pendingRemove]
  rw [List.filter_eq_self]
  intro x hx
  simp [h x hx]

theorem refreshLoop_cons_notmem {J : Type} :
    ∀ (ks : List Nat) (e : Nat × Nat × Nat) (p : List (Nat × Nat × Nat)),
    e.1 ∉ ks →
    refreshLoop (J := J) ks (e :: p) =
      (e :: (refreshLoop (J := J) ks p).1, (refreshLoop (J := J) ks p).2) := by
  intro ks
  induction ks with
  | nil =>
    intro e p h
    rfl
  | cons k ks ih =>
    intro e p h
    have hek : e.1 ≠ k := fun hc => h (by rw [hc]; exact List.mem_cons_self _ _)
    have hmem : e.1 ∉ ks := fun hc => h (List.mem_cons_of_mem _ hc)
    rw [refreshLoop, pendingLookup_cons_ne e p hek]
    cases hl : pendingLookup p k with
    | none =>
      rw [refreshLoop, hl]
      exact ih e p hmem
    | some v =>
      rw [refreshLoop, hl]
      rw [pendingRemove_cons_ne e p hek]
      rw [ih e (pendingRemove p k) hmem]

theorem refreshLoop_spec {J : Type} (now : Nat) :
    ∀ (P : List (Nat × Nat × Nat)), (P.map (fun e => e.1)).Nodup →
    refreshLoop (J := J)
        ((P.filter (fun e => decide (10000 < now - e.2.1))).map (fun e => e.1)) P =
      (P.filter (fun e => decide (now - e.2.1 ≤ 10000)),
        (P.filter (fun e => decide (10000 < now - e.2.1))).map
          (fun e => Output.reply e.2.2 .Timeout)) := by
  intro P
  induction P with
  | nil =>
    intro hnd
    rfl
  | cons e P' ih =>
    intro hnd
    rw [List.map_cons, List.nodup_cons] at hnd
    obtain ⟨hnotin, hnd'⟩ := hnd
    have hsub : ∀ x ∈ P', x.1 ≠ e.1 := by
      intro x hx hc
      exact hnotin (by rw [← hc]; exact List.mem_map_of_mem _ hx)
    by_cases hto : 10000 < now - e.2.1
    · rw [List.filter_cons, if_pos (decide_eq_true hto), List.map_cons]
      rw [refreshLoop, pendingLookup_cons_self e P']
      rw [pendingRemove_cons_self e P' rfl, pendingRemove_not_mem hsub]
      have hids : e.1 ∉ (P'.filter (fun x => decide (10000 < now - x.2.1))).map
          (fun x => x.1) := by
        intro hc
        obtain ⟨x, hx1, hx2⟩ := List.mem_map.1 hc
        exact hsub x (List.mem_filter.1 hx1).1 hx2
      rw [ih hnd']
      rw [List.filter_cons,
        if_neg (by rw [decide_eq_false (Nat.not_le.2 hto)]; simp), List.map_cons]
    · rw [List.filter_cons, if_neg (by rw [decide_eq_false hto]; simp)]
      have hids : e.1 ∉ (P'.filter (fun x => decide (10000 < now - x.2.1))).map
          (fun x => x.1) := by
        intro hc
        obtain ⟨x, hx1, hx2⟩ := List.mem_map.1 hc
        exact hsub x (List.mem_filter.1 hx1).1 hx2
      rw [refreshLoop_cons_notmem _ e P' hids, ih hnd']
      rw [List.filter_cons, if_pos (decide_eq_true (Nat.not_lt.1 hto))]

/-- Claim C5: on a Refresh event, every pending entry strictly older than
10 s is removed and its reply channel receives Timeout, every entry aged
at most 10 s is kept unchanged, and after the sweep no entry older than
10 s remains (keys are distinct, the HashMap invariant). -/
theorem C5_refresh_timeout {J : Type} (now : Nat) (st : ClientLogicState)
    (hnd : (st.pending_txns.map (fun e => e.1)).Nodup) :
    (ClientLogic.refresh (J := J) now st).1.pending_txns =
        st.pending_txns.filter (fun e => decide (now - e.2.1 ≤ 10000)) ∧
    (ClientLogic.refresh (J := J) now st).2 =
        (st.pending_txns.filter (fun e => decide (10000 < now - e.2.1))).map
          (fun e => Output.reply e.2.2 .Timeout) ∧
    (∀ e ∈ (ClientLogic.refresh (J := J) now st).1.pending_txns,
      now - e.2.1 ≤ 10000) := by
  have hspec := refreshLoop_spec (J := J) now st.pending_txns hnd
  rw [ClientLogic.refresh, hspec]
  refine ⟨rfl, rfl, ?_⟩
  intro e he
  have := (List.mem_filter.1 he).2
  simpa using this

theorem C5_refresh_timeout_witness :
    (([(1, 0, 7), (2, 25000, 8)].map (fun e : Nat × Nat × Nat => e.1)).Nodup) ∧
    (ClientLogic.refresh (J := Unit) 30000
        { next_txn_id := 0, pending_txns := [(1, 0, 7), (2, 25000, 8)],
          codecBuffer := [], authenticated := true }).1.pending_txns =
      [(2, 25000, 8)] ∧
    (ClientLogic.refresh (J := Unit) 30000
        { next_txn_id := 0, pending_txns := [(1, 0, 7), (2, 25000, 8)],
          codecBuffer := [], authenticated := true }).2 =
      [Output.reply 7 .Timeout] := by
  have h := C5_refresh_timeout (J := Unit) 30000
    { next_txn_id := 0, pending_txns := [(1, 0, 7), (2, 25000, 8)],
      codecBuffer := [], authenticated := true } (by decide)
  refine ⟨by decide, ?_, ?_⟩
  · rw [h.1]
    decide
  · rw [h.2.1]
    decide

/-- Claim C6: when a pending entry keyed by pulse id P exists, handling a
MailOp command for P immediately completes the new caller's reply channel
with the duplicate-request error, writes nothing to the transport, and
leaves the state (including the pending table and the existing entry)
unchanged. -/
theorem C6_mailop_duplicate {J : Type} (toJson : J → List Nat) (now : Nat)
    (st : ClientLogicState) (ack : MailAckType) (P chan : Nat)
    (h : pendingContains st.pending_txns P = true) :
    ClientLogic.handle_cmd toJson now st (.MailOp ack P chan) =
      (st, [Output.reply chan (.Err duplicateReqMsg)], true) := by
  simp only [ClientLogic.handle_cmd]
  rw [if_pos h]

theorem C6_mailop_duplicate_witness :
    pendingContains [(5, 0, 2)] 5 = true ∧
    ClientLogic.handle_cmd (J := Unit) (fun _ => []) 100
        { next_txn_id := 0, pending_txns := [(5, 0, 2)], codecBuffer := [],
          authenticated := true } (.MailOp .Ack 5 9) =
      ({ next_txn_id := 0, pending_txns := [(5, 0, 2)], codecBuffer := [],
          authenticated := true },
        [Output.reply 9 (.Err duplicateReqMsg)], true) :=
  ⟨by decide, C6_mailop_duplicate (fun _ => []) 100 _ .Ack 5 9 (by decide)⟩

/-- Claim C10: a response frame (PulseResp, AckMailResp or MailboxNextResp)
whose transaction key has no pending entry is a complete no-op: no reply
channel receives a value, the state is unchanged, and the session does not
disconnect. -/
theorem C10_unknown_txn_noop {J : Type} (st : ClientLogicState)
    (resp : ServerResp J) (k : Nat) (hk : respTxnKey resp = some k)
    (hnone : pendingLookup st.pending_txns k = none) :
    handle_server_resp st resp = (st, [], .normal) := by
  cases resp with
  | ForceCloseSocket => simp [respTxnKey] at hk
  | Connected m => simp [respTxnKey] at hk
  | Disconnected r => simp [respTxnKey] at hk
  | HeartbeatAck => simp [respTxnKey] at hk
  | NewMail => simp [respTxnKey] at hk
  | PulseResp r =>
    cases r with
    | ok txn =>
      simp only [respTxnKey, Option.some.injEq] at hk
      subst hk
      simp only [handle_server_resp, resolve_txn, hnone]
    | error pr =>
      obtain ⟨txn, reason⟩ := pr
      simp only [respTxnKey, Option.some.injEq] at hk
      subst hk
      simp only [handle_server_resp, resolve_txn, hnone]
  | AckMailResp r =>
    cases r with
    | ok pr =>
      obtain ⟨pid, more⟩ := pr
      simp only [respTxnKey, Option.some.injEq] at hk
      subst hk
      simp only [handle_server_resp, resolve_txn, hnone]
    | error pr =>
      obtain ⟨pid, ack⟩ := pr
      simp only [respTxnKey, Option.some.injEq] at hk
      subst hk
      simp only [handle_server_resp, resolve_txn, hnone]
  | MailboxNext r =>
    cases r with
    | ok pr =>
      obtain ⟨txn, m⟩ := pr
      simp only [respTxnKey, Option.some.injEq] at hk
      subst hk
      simp only [handle_server_resp, resolve_txn, hnone]
    | error txn =>
      simp only [respTxnKey, Option.some.injEq] at hk
      subst hk
      simp only [handle_server_resp, resolve_txn, hnone]

theorem C10_unknown_txn_noop_witness :
    respTxnKey (J := Unit) (.PulseResp (.ok 99)) = some 99 ∧
    pendingLookup [(1, 0, 4)] 99 = none ∧
    handle_server_resp (J := Unit)
        { next_txn_id := 2, pending_txns := [(1, 0, 4)], codecBuffer := [8],
          authenticated := true } (.PulseResp (.ok 99)) =
      ({ next_txn_id := 2, pending_txns := [(1, 0, 4)], codecBuffer := [8],
          authenticated := true }, [], .normal) :=
  ⟨by decide, by decide, C10_unknown_txn_noop _ _ 99 (by decide) (by decide)⟩

/-- Claim C8 (amended): from a fresh supervisor the sleeps on successive
non-unauthorized disconnects are 0, 1 s, 2.5 s, 5 s, 10 s, 15 s, 30 s,
30 s, …, the stored next value running one slot ahead; an unauthorized
disconnect after any state sleeps 5 minutes and stores 5 minutes, and
repeated unauthorized disconnects keep sleeping 5 minutes; but the
5-minute backoff does not persist until a successful authentication: a
non-unauthorized disconnect after it sleeps the stored 5 minutes once and
stores 30 s.  A successful authentication resets the stored schedule, so
the next reconnect is immediate. -/
theorem C8_backoff_schedule :
    backoffRun none (List.replicate 8 false) =
      [0, 1000, 2500, 5000, 10000, 15000, 30000, 30000] ∧
    (∀ st : Option Nat, MoonlightClient.backoff st true = (300000, some 300000)) ∧
    MoonlightClient.backoff (some 300000) false = (300000, some 30000) ∧
    backoffRun MoonlightClient.resetBackoff [false] = [0] := by
  refine ⟨by decide, ?_, by decide, by decide⟩
  intro st
  rw [MoonlightClient.backoff, if_pos rfl]

theorem C8_unauthorized_not_sticky_counterexample :
    backoffRun none [true, false, false] = [300000, 300000, 30000] ∧
    (30000 : Nat) ≠ 300000 := by decide

/-- Claim C9 (amended): the authentication phase deadline is a rolling
10-second per-receive deadline, not a total one: the receive loop fails
with force_close exactly when the next event arrives more than 10 s after
the previous receive returned (or when no further event ever arrives). -/
theorem C9_auth_timeout_per_recv {J : Type} (parseJson : List Nat → Option J)
    (st : ClientLogicState) (lastT : Nat) :
    (waitAuthLoop parseJson st lastT [] = (.err .ForceCloseSocket, st, [])) ∧
    (∀ (t : Nat) (e : ClientEvent J) (rest : List (Nat × ClientEvent J)),
      lastT + 10000 < t →
      waitAuthLoop parseJson st lastT ((t, e) :: rest) =
        (.err .ForceCloseSocket, st, [])) := by
  constructor
  · rw [waitAuthLoop]
  · intro t e rest h
    cases e <;> rw [waitAuthLoop, if_pos h] <;> simp

theorem C9_auth_timeout_per_recv_witness :
    (0 + 10000 < 20000) ∧
    waitAuthLoop (J := Unit) (fun _ => none) ClientLogicState.init 0
        [(20000, .TransportRecv [3])] =
      (.err .ForceCloseSocket, ClientLogicState.init, []) :=
  ⟨by decide,
    (C9_auth_timeout_per_recv (fun _ => none) ClientLogicState.init 0).2
      20000 (.TransportRecv [3]) [] (by decide)⟩

theorem C9_total_deadline_counterexample :
    (ClientLogic.wait_for_authentication (J := Unit) (fun _ => none) []
        ClientLogicState.init slowAuthEvents).1 = .ok ∧
    (10000 : Nat) < 18000 := by
  constructor
  · decide
  · decide

theorem handle_resolve_mail {J : Type} (st : ClientLogicState)
    (txn ts ch : Nat) (hpend : pendingLookup st.pending_txns txn = some (ts, ch))
    (m : Option (Mail J)) :
    handle_server_resp st (ServerResp.MailboxNext (.ok (txn, m))) =
      ({ st with pending_txns := pendingRemove st.pending_txns txn },
        [Output.reply ch (.Mail m)], .normal) := by
  simp only [handle_server_resp, resolve_txn, hpend]

theorem handle_resolve_mail_err {J : Type} (st : ClientLogicState)
    (txn ts ch : Nat) (hpend : pendingLookup st.pending_txns txn = some (ts, ch)) :
    handle_server_resp (J := J) st (ServerResp.MailboxNext (.error txn)) =
      ({ st with pending_txns := pendingRemove st.pending_txns txn },
        [Output.reply ch (.Err "failed: Failed to fetch next mail")], .normal) := by
  simp only [handle_server_resp, resolve_txn, hpend]

/-- Claim C7 (amended): a MailboxNextResp frame resolving a pending
transaction always removes the pending entry and completes its reply
channel with exactly one value, without disconnecting: success with
mailbox_size = 0 delivers Mail(none); success with mailbox_size > 0 whose
name bytes are valid UTF-8 delivers the Mail record, with the payload
present only when header_only is false and the payload bytes parse as
JSON; an unsuccessful response delivers the generic fetch error; and —
the correction — success with mailbox_size > 0 whose conditional fields
are absent or whose name bytes are NOT valid UTF-8 also delivers the
generic fetch error instead of a Mail. -/
theorem C7_mailbox_next_resolution {J : Type} (parseJson : List Nat → Option J)
    (st : ClientLogicState) (ho s : Bool) (txn size : Nat)
    (pid nl : Option Nat) (nm : Option (List Nat)) (plen : Option Nat)
    (pl : Option (List Nat)) (ts ch : Nat)
    (hpend : pendingLookup st.pending_txns txn = some (ts, ch)) :
    ∃ v, handle_server_resp st (ServerResp.handle_packet parseJson
        (.MailboxNextResp ho s txn size pid nl nm plen pl)) =
      ({ st with pending_txns := pendingRemove st.pending_txns txn },
        [Output.reply ch v], .normal) ∧
      (s = true → size = 0 → v = .Mail none) ∧
      (s = true → size ≠ 0 → ∀ P nmB, pid = some P → nm = some nmB →
        utf8Valid nmB = true →
        v = .Mail (some ⟨P, nmB, (if ho then none else pl.bind parseJson), size⟩)) ∧
      (s = false → v = .Err "failed: Failed to fetch next mail") ∧
      (s = true → size ≠ 0 →
        (pid = none ∨ nm = none ∨ (∃ nmB, nm = some nmB ∧ utf8Valid nmB = false)) →
        v = .Err "failed: Failed to fetch next mail") := by
  have hbind : (match pl with
      | some b => parseJson b
      | none => none) = pl.bind parseJson := by
    cases pl <;> rfl
  cases s with
  | false =>
    refine ⟨.Err "failed: Failed to fetch next mail", ?_, ?_, ?_, ?_, ?_⟩
    · have hhp : ServerResp.handle_packet parseJson
          (.MailboxNextResp ho false txn size pid nl nm plen pl) =
          ServerResp.MailboxNext (.error txn) := by
        simp only [ServerResp.handle_packet]
        rw [if_neg (by simp), if_neg (by simp)]
      rw [hhp, handle_resolve_mail_err st txn ts ch hpend]
    · intro hx
      simp at hx
    · intro hx
      simp at hx
    · intro _x
      rfl
    · intro hx
      simp at hx
  | true =>
    by_cases hsz : size = 0
    · subst hsz
      refine ⟨.Mail none, ?_, ?_, ?_, ?_, ?_⟩
      · have hhp : ServerResp.handle_packet parseJson
            (.MailboxNextResp ho true txn 0 pid nl nm plen pl) =
            ServerResp.MailboxNext (.ok (txn, none)) := by
          simp only [ServerResp.handle_packet]
          rw [if_neg (by simp), if_pos (by simp)]
        rw [hhp, handle_resolve_mail st txn ts ch hpend none]
      · intro _x _y
        rfl
      · intro _x hy
        exact absurd rfl hy
      · intro hx
        simp at hx
      · intro _x hy
        exact absurd rfl hy
    · cases pid with
      | none =>
        refine ⟨.Err "failed: Failed to fetch next mail", ?_, ?_, ?_, ?_, ?_⟩
        · have hhp : ServerResp.handle_packet parseJson
              (.MailboxNextResp ho true txn size none nl nm plen pl) =
              ServerResp.MailboxNext (.error txn) := by
            simp only [ServerResp.handle_packet]
            rw [if_pos ⟨trivial, hsz⟩]
          rw [hhp, handle_resolve_mail_err st txn ts ch hpend]
        · intro _x hy
          exact absurd hy hsz
        · intro _x _y P nmB hP
          simp at hP
        · intro hx
          simp at hx
        · intro _x _y _z
          rfl
      | some P =>
        cases nm with
        | none =>
          refine ⟨.Err "failed: Failed to fetch next mail", ?_, ?_, ?_, ?_, ?_⟩
          · have hhp : ServerResp.handle_packet parseJson
                (.MailboxNextResp ho true txn size (some P) nl none plen pl) =
                ServerResp.MailboxNext (.error txn) := by
              simp only [ServerResp.handle_packet]
              rw [if_pos ⟨trivial, hsz⟩]
            rw [hhp, handle_resolve_mail_err st txn ts ch hpend]
          · intro _x hy
            exact absurd hy hsz
          · intro _x _y P2 nmB _hP hnm
            simp at hnm
          · intro hx
            simp at hx
          · intro _x _y _z
            rfl
        | some nmB =>
          cases hval : utf8Valid nmB with
          | false =>
            refine ⟨.Err "failed: Failed to fetch next mail", ?_, ?_, ?_, ?_, ?_⟩
            · have hhp : ServerResp.handle_packet parseJson
                  (.MailboxNextResp ho true txn size (some P) nl (some nmB) plen pl) =
                  ServerResp.MailboxNext (.error txn) := by
                simp only [ServerResp.handle_packet]
                rw [if_pos ⟨trivial, hsz⟩]
                simp only [hval]
                rfl
              rw [hhp, handle_resolve_mail_err st txn ts ch hpend]
            · intro _x hy
              exact absurd hy hsz
            · intro _x _y P2 nmB2 hP hnm hv
              obtain rfl : nmB = nmB2 := by simpa using hnm
              rw [hval] at hv
              cases hv
            · intro hx
              simp at hx
            · intro _x _y _z
              rfl
          | true =>
            cases ho with
            | false =>
              refine ⟨.Mail (some ⟨P, nmB, pl.bind parseJson, size⟩), ?_, ?_, ?_, ?_, ?_⟩
              · have hhp : ServerResp.handle_packet parseJson
                    (.MailboxNextResp false true txn size (some P) nl (some nmB) plen pl) =
                    ServerResp.MailboxNext
                      (.ok (txn, some ⟨P, nmB, pl.bind parseJson, size⟩)) := by
                  simp only [ServerResp.handle_packet]
                  rw [if_pos ⟨trivial, hsz⟩]
                  simp only [hval, hbind]
                  rfl
                rw [hhp, handle_resolve_mail st txn ts ch hpend _]
              · intro _x hy
                exact absurd hy hsz
              · intro _x _y P2 nmB2 hP hnm _hv
                obtain rfl : P = P2 := by simpa using hP
                obtain rfl : nmB = nmB2 := by simpa using hnm
                rfl
              · intro hx
                simp at hx
              · intro _x _y hz
                rcases hz with hz | hz | ⟨nmB2, hz1, hz2⟩
                · simp at hz
                · simp at hz
                · obtain rfl : nmB = nmB2 := by simpa using hz1
                  rw [hval] at hz2
                  cases hz2
            | true =>
              refine ⟨.Mail (some ⟨P, nmB, none, size⟩), ?_, ?_, ?_, ?_, ?_⟩
              · have hhp : ServerResp.handle_packet parseJson
                    (.MailboxNextResp true true txn size (some P) nl (some nmB) plen pl) =
                    ServerResp.MailboxNext (.ok (txn, some ⟨P, nmB, none, size⟩)) := by
                  simp only [ServerResp.handle_packet]
                  rw [if_pos ⟨trivial, hsz⟩]
                  simp only [hval]
                  rfl
                rw [hhp, handle_resolve_mail st txn ts ch hpend _]
              · intro _x hy
                exact absurd hy hsz
              · intro _x _y P2 nmB2 hP hnm _hv
                obtain rfl : P = P2 := by simpa using hP
                obtain rfl : nmB = nmB2 := by simpa using hnm
                rfl
              · intro hx
                simp at hx
              · intro _x _y hz
                rcases hz with hz | hz | ⟨nmB2, hz1, hz2⟩
                · simp at hz
                · simp at hz
                · obtain rfl : nmB = nmB2 := by simpa using hz1
                  rw [hval] at hz2
                  cases hz2

theorem C7_mailbox_next_resolution_witness :
    pendingLookup [(7, 0, 3)] 7 = some (0, 3) ∧
    ∃ v, handle_server_resp (J := Unit)
        { next_txn_id := 0, pending_txns := [(7, 0, 3)], codecBuffer := [],
          authenticated := true }
        (ServerResp.handle_packet (fun _ => none)
          (.MailboxNextResp false true 7 0 none none none none none)) =
      ({ next_txn_id := 0, pending_txns := [], codecBuffer := [],
          authenticated := true }, [Output.reply 3 (.Mail v)], .normal) := by
  refine ⟨by decide, ?_⟩
  obtain ⟨v, hv, hz, -, -, -⟩ := C7_mailbox_next_resolution (J := Unit)
    (fun _ => none)
    { next_txn_id := 0, pending_txns := [(7, 0, 3)], codecBuffer := [],
      authenticated := true } false true 7 0 none none none none none 0 3
    (by decide)
  rw [hz rfl rfl] at hv
  exact ⟨none, by rw [hv]; rfl⟩

/-- The claim C7, as stated, is false: a successful MailboxNextResp with
mailbox_size > 0 whose name bytes are not valid UTF-8 (here the single
byte 255) does not deliver a Mail record at all — the caller receives the
generic fetch error instead. -/
theorem C7_invalid_name_counterexample :
    handle_server_resp (J := Unit)
        { next_txn_id := 0, pending_txns := [(7, 0, 3)], codecBuffer := [],
          authenticated := true }
        (ServerResp.handle_packet (fun _ => none)
          (.MailboxNextResp false true 7 1 (some 5) (some 1) (some [255])
            (some 0) (some []))) =
      ({ next_txn_id := 0, pending_txns := [], codecBuffer := [],
          authenticated := true },
        [Output.reply 3 (.Err "failed: Failed to fetch next mail")], .normal) ∧
    ∀ m : Mail Unit,
      Output.reply (J := Unit) 3 (.Err "failed: Failed to fetch next mail") ≠
        Output.reply (J := Unit) 3 (.Mail (some m)) := by
  constructor
  · decide
  · intro m hx
    simp at hx

end Moonlight
